import Mathlib

set_option maxRecDepth 100000

/-!
Verification of the vsTaskViewer task-supervision service.

This file shallowly embeds the parts of the Go sources that the verified
properties are about:

* `security.go` — task-name / task-id / parameter validation,
* `task.go`     — `TaskManager.StartTask`, parameter processing, `{{k}}`
  template substitution (modelled on `List Char`),
* `api.go`      — JSON canonicalisation (`normalizeJSON`), SHA-1 body binding,
  and the error mapping of `handleStartTask`,
* `auth.go`     — the claim-validation part of `validateJWT` (expiry and
  audience policy; the HMAC signature check itself is outside the model),
* `websocket.go`— the `tailFile` wait/drain/follow loop, as a trace function
  over an explicit environment,
* the Timeout Engine, which exists in the repository only through its tests;
  it is modelled from the specification text.

Go strings are modelled as `List Char`; Go byte values as `Nat` below 256;
`float64` values that arrive from JSON decoding as exact rationals `ℚ`
(adequate for every value the claims mention; the float64 rounding of
numbers above 2^53 is abstracted away).  Machine-word arithmetic in SHA-1
is `Nat` with explicit `% 2^32`.
-/

namespace VTV

/-! ## Basic character and string helpers -/

/-- Decimal digit test, the `[0-9]` character class of `security.go`. -/
def isDigitCh (c : Char) : Bool := '0' ≤ c && c ≤ '9'

/-- ASCII letter test, used by the `[a-zA-Z]` classes. -/
def isAlphaCh (c : Char) : Bool :=
  ('a' ≤ c && c ≤ 'z') || ('A' ≤ c && c ≤ 'Z')

/-- Character class of `taskNameRegex = ^[a-zA-Z0-9_-]+$`. -/
def isTaskNameCh (c : Char) : Bool :=
  isAlphaCh c || isDigitCh c || c = '_' || c = '-'

/-- Character class of `stringParamRegex = ^[-a-zA-Z0-9_:,\.]+$`. -/
def isStringParamCh (c : Char) : Bool :=
  c = '-' || isAlphaCh c || isDigitCh c || c = '_' || c = ':' || c = ',' || c = '.'

/-- Match against `intParamRegex = ^[0-9]+$`: nonempty and all digits. -/
def intRegexMatch (s : List Char) : Bool :=
  !s.isEmpty && s.all isDigitCh

/-- Match against `stringParamRegex = ^[-a-zA-Z0-9_:,\.]+$`. -/
def stringRegexMatch (s : List Char) : Bool :=
  !s.isEmpty && s.all isStringParamCh

/-- Match against `taskNameRegex = ^[a-zA-Z0-9_-]+$`. -/
def taskNameRegexMatch (s : List Char) : Bool :=
  !s.isEmpty && s.all isTaskNameCh

/-- The character for a decimal digit value (`0 ↦ '0'`, …, `9 ↦ '9'`). -/
def digitCh (d : Nat) : Char := Char.ofNat (48 + d)

/-- Fuel-driven digit production (structural recursion so that the kernel
can evaluate it; the fuel never runs out at `n < fuel`). -/
def natDecCharsAux : Nat → Nat → List Char
  | 0, _ => []
  | fuel + 1, n =>
      if n < 10 then [digitCh n]
      else natDecCharsAux fuel (n / 10) ++ [digitCh (n % 10)]

/-- Decimal representation of a natural number, most significant digit first
(the digit production shared by Go `strconv.Itoa` / `strconv.FormatInt`). -/
def natDecChars (n : Nat) : List Char := natDecCharsAux (n + 1) n

/-- Decimal representation of an integer (`strconv.FormatInt(v, 10)`). -/
def intDecChars (i : Int) : List Char :=
  if i < 0 then '-' :: natDecChars i.natAbs else natDecChars i.natAbs

/-- Substring containment on `List Char` (Go `strings.Contains`). -/
def containsSub (s pat : List Char) : Bool :=
  if pat.isPrefixOf s then true
  else match s with
    | [] => false
    | _ :: rest => containsSub rest pat

/-! ## `security.go`: parameter validation

Parameter values arrive as Go `interface{}` produced by `encoding/json`
decoding (string, float64, bool, nil, array, object) or, in tests, as Go
`int` / `int64`.  `GoVal` covers exactly these runtime kinds; numbers are
exact rationals. -/

/-- A Go `interface{}` value as it can reach `validateParameterValue`. -/
inductive GoVal where
  | str (s : List Char)
  | num (q : ℚ)                       -- float64 from JSON decoding
  | intv (n : Int)                    -- Go int
  | int64v (n : Int)                  -- Go int64
  | boolv (b : Bool)
  | nullv
  | arr (xs : List GoVal)
  | obj (fields : List (List Char × GoVal))

/-- Go `strconv.FormatFloat(v, 'f', -1, 64)` on an integral value; for
non-integral values `validateParameterValue` only ever feeds the result to a
character-class check, so the fractional rendering below (exact digits,
which coincides with Go's shortest form on the short decimal literals the
service handles) is adequate. -/
def formatFloatChars (q : ℚ) : List Char :=
  if q.den = 1 then intDecChars q.num
  else
    -- exact decimal expansion when the denominator divides a power of ten
    match (List.range 40).find? (fun k => (10 ^ k : Nat) % q.den = 0) with
    | some k =>
        let scaled : Int := q.num * ((10 ^ k : Nat) / q.den : Nat)
        let sign : List Char := if scaled < 0 then ['-'] else []
        let ds := natDecChars scaled.natAbs
        let ds := if ds.length ≤ k then List.replicate (k + 1 - ds.length) '0' ++ ds else ds
        sign ++ ds.take (ds.length - k) ++ ['.'] ++ ds.drop (ds.length - k)
    | none => intDecChars q.num  -- unreachable for values parsed from JSON literals

/-- The magnitude 2^63, the first integer beyond `int64` range: Go's
`int64(v)` conversion in `validateParameterValue` is exact only for
integral `v` with `-2^63 ≤ v < 2^63`. -/
def int64Bound : Int := 9223372036854775808

/-- `validateParameterValue` from `security.go`: checks a provided value
against the declared parameter type and returns its validated string form. -/
def validateParameterValue (paramName paramType : List Char) (value : GoVal) :
    Except (List Char) (List Char) :=
  -- first switch: convert the runtime value to a string
  let conv : Except (List Char) (List Char) :=
    match value with
    | .str s => .ok s
    | .num q =>
        if paramType = "int".toList then
          -- `if v != float64(int64(v))`: rejects non-integral values, and
          -- also every value outside int64 range — the conversion of an
          -- out-of-range float64 is implementation-dependent in Go and
          -- yields -2^63 on amd64, which can never equal such a `v`
          if q.den ≠ 1 ∨ q.num < -int64Bound ∨ int64Bound ≤ q.num then
            .error ("parameter \x27".toList ++ paramName ++
              "\x27 must be an integer, got float".toList)
          else .ok (intDecChars q.num)
        else .ok (formatFloatChars q)
    | .intv n =>
        if paramType = "int".toList then .ok (intDecChars n)
        else .error ("parameter \x27".toList ++ paramName ++
          "\x27 must be of type \x27".toList ++ paramType ++ "\x27, got int".toList)
    | .int64v n =>
        if paramType = "int".toList then .ok (intDecChars n)
        else .error ("parameter \x27".toList ++ paramName ++
          "\x27 must be of type \x27".toList ++ paramType ++ "\x27, got int64".toList)
    | _ => .error ("parameter \x27".toList ++ paramName ++
        "\x27 has unsupported type".toList)
  match conv with
  | .error e => .error e
  | .ok valueStr =>
      -- second switch: validate the string form against the declared type
      if paramType = "int".toList then
        if intRegexMatch valueStr then .ok valueStr
        else .error ("parameter \x27".toList ++ paramName ++
          "\x27 (type int) contains invalid characters. Only digits 0-9 are allowed, got: ".toList
          ++ valueStr)
      else if paramType = "string".toList then
        if stringRegexMatch valueStr then .ok valueStr
        else .error ("parameter \x27".toList ++ paramName ++
          "\x27 (type string) contains invalid characters. Only [-a-zA-Z0-9_:,.] are allowed, got: ".toList
          ++ valueStr)
      else .error ("parameter \x27".toList ++ paramName ++
        "\x27 has unknown type: ".toList ++ paramType ++
        " (must be \x27int\x27 or \x27string\x27)".toList)

/-! ## `security.go` / `task.go`: task names, substitution, parameter maps -/

/-- Errors of `errors.go` plus free-form error strings from `task.go`. -/
def errEmptyTaskName : List Char := "task name cannot be empty".toList

def errTaskNameTooLong : List Char := "task name too long".toList

def errInvalidTaskName : List Char := "task name contains invalid characters".toList

/-- `validateTaskName` from `security.go`. -/
def validateTaskName (name : List Char) : Except (List Char) Unit :=
  if name = [] then .error errEmptyTaskName
  else if name.length > 100 then .error errTaskNameTooLong
  else if taskNameRegexMatch name then .ok ()
  else .error errInvalidTaskName

/-- Fuel-driven scan of `strings.ReplaceAll` (structural recursion; at each
step either one character or one whole nonempty match is consumed, so
`s.length` fuel suffices, and exhausted fuel returns the rest unchanged). -/
def replaceAllAux (pat rep : List Char) : Nat → List Char → List Char
  | 0, s => s
  | fuel + 1, s =>
      match s with
      | [] => []
      | c :: cs =>
          if pat ≠ [] && pat.isPrefixOf (c :: cs) then
            rep ++ replaceAllAux pat rep fuel ((c :: cs).drop pat.length)
          else
            c :: replaceAllAux pat rep fuel cs

/-- Go `strings.ReplaceAll s pat rep` for a nonempty pattern (the patterns fed
by `substituteParameters` are `\x7b\x7bk\x7d\x7d`, of length at least four; on
the empty pattern, which never occurs, this model is the identity). -/
def replaceAll (s pat rep : List Char) : List Char :=
  replaceAllAux pat rep s.length s

/-- The placeholder `\x7b\x7bname\x7d\x7d` for a parameter name. -/
def marker (k : List Char) : List Char := '{' :: '{' :: k ++ ['}', '}']

/-- `substituteParameters` from `task.go`: replace every `\x7b\x7bk\x7d\x7d`
occurrence by the associated value, one parameter after the other (Go
iterates the map in unspecified order; the model folds the association list
left to right). -/
def substituteParameters (command : List Char) (params : List (List Char × List Char)) :
    List Char :=
  params.foldl (fun acc kv => replaceAll acc (marker kv.1) kv.2) command

/-- A parameter definition from the task configuration (`config.go`). -/
structure ParameterConfig where
  name : List Char
  type : List Char
  optional : Bool

/-- A task definition from the configuration (`config.go`). -/
structure TaskConfig where
  name : List Char
  command : List Char
  maxExecutionTime : Int := 0
  parameters : List ParameterConfig := []

/-- Association-list lookup, the model of a Go map read `m[k]`. -/
def alookup (m : List (List Char × GoVal)) (k : List Char) : Option GoVal :=
  match m.find? (fun kv => kv.1 = k) with
  | some kv => some kv.2
  | none => none

/-- The per-definition loop of `validateAndProcessParameters`: walk the
declared parameters in order, failing on the first missing required or
invalid value, and collect the validated string forms. -/
def checkDefinedParams (paramDefs : List ParameterConfig)
    (providedParams : List (List Char × GoVal)) :
    Except (List Char) (List (List Char × List Char)) :=
  match paramDefs with
  | [] => .ok []
  | d :: rest =>
    match alookup providedParams d.name with
    | none =>
        if !d.optional then
          .error ("required parameter \x27".toList ++ d.name ++
            "\x27 (type ".toList ++ d.type ++ ") is missing".toList)
        else checkDefinedParams rest providedParams
    | some value =>
        match validateParameterValue d.name d.type value with
        | .error e => .error e
        | .ok v => (checkDefinedParams rest providedParams).map ((d.name, v) :: ·)

/-- The second loop of `validateAndProcessParameters`: a provided name with no
matching definition. -/
def findUnknownParam (paramDefs : List ParameterConfig)
    (providedParams : List (List Char × GoVal)) : Option (List Char) :=
  (providedParams.find? (fun kv => !(paramDefs.any (fun d => d.name = kv.1)))).map (·.1)

/-- `validateAndProcessParameters` from `task.go`.  `providedParams` models the
decoded `map[string]interface{}` (duplicate-free; a `nil` map is `[]`). -/
def validateAndProcessParameters (paramDefs : List ParameterConfig)
    (providedParams : List (List Char × GoVal)) :
    Except (List Char) (List (List Char × List Char)) :=
  if paramDefs.isEmpty then
    if !providedParams.isEmpty then
      .error ("task does not accept parameters, but ".toList ++
        natDecChars providedParams.length ++ " parameter(s) were provided".toList)
    else .ok []
  else
    match checkDefinedParams paramDefs providedParams with
    | .error e => .error e
    | .ok validated =>
        match findUnknownParam paramDefs providedParams with
        | some name => .error ("unknown parameter \x27".toList ++ name ++
            "\x27 provided (not defined in task configuration)".toList)
        | none => .ok validated

/-! ## `task.go`: `TaskManager.StartTask` with explicit effects

`StartTask` validates, then allocates an identifier, creates the output
directory, writes the wrapper script, spawns the process, and registers the
task.  The model threads an explicit `World`: a supply of fresh identifiers
(`uuid.New()`), a log of filesystem/process effects, and failure switches
for the three fallible effects. -/

/-- `escapeBashCommand` from `security.go`: single-quote and escape embedded
single quotes as `\x27\backslash\x27\x27`. -/
def escapeBashCommand (cmd : List Char) : List Char :=
  '\x27' :: (replaceAll cmd ['\x27'] ['\x27', '\\', '\x27', '\x27']) ++ ['\x27']

/-- An externally visible side effect of `StartTask`. -/
inductive FsOp where
  | mkdirAll (path : List Char)               -- `os.MkdirAll(outputDir, 0700)`
  | writeFile (path : List Char) (content : List Char)  -- wrapper script
  | startProc (script : List Char)            -- `cmd.Start()` on `bash run.sh`
  | writePidFile (path : List Char)           -- best-effort PID write after start
deriving DecidableEq

/-- The generated wrapper script (the `fmt.Sprintf` template in `StartTask`):
record the PID, change into the output directory, redirect both streams,
run the command through a fresh shell, record and propagate its exit code. -/
def wrapperScriptFor (outputDir command : List Char) : List Char :=
  "#!/bin/bash\nset +e\necho $$ > ".toList ++ (outputDir ++ "/pid".toList) ++
  "\ncd ".toList ++ escapeBashCommand outputDir ++
  "\nexec > ".toList ++ (outputDir ++ "/stdout".toList) ++
  " 2> ".toList ++ (outputDir ++ "/stderr".toList) ++
  "\nbash -c ".toList ++ escapeBashCommand command ++
  "\nEXIT_CODE=$?\necho $EXIT_CODE > ".toList ++ (outputDir ++ "/exitcode".toList) ++
  "\nexit $EXIT_CODE\n".toList

/-- The world `StartTask` acts on: fresh-identifier supply, effect log, and
failure switches for directory creation, script write, and process start. -/
structure World where
  ids : List (List Char)
  ops : List FsOp := []
  mkdirFails : Bool := false
  writeFails : Bool := false
  startFails : Bool := false
deriving DecidableEq

/-- In-memory record of a launched task (`RunningTask` in `task.go`; the
start time and the PID bookkeeping are not needed by any claim). -/
structure RunningTask where
  id : List Char
  taskName : List Char
  outputDir : List Char
  maxExecutionTime : Int
  terminated : Bool := false
  killed : Bool := false
deriving DecidableEq

/-- Server-side configuration consumed by `StartTask` (`config.go`). -/
structure ServerConfig where
  taskDir : List Char

/-- `TaskManager.StartTask` from `task.go`.  Returns the result together with
the updated running-task map and world.  Every validation failure returns
before any effect; the effect sequence mirrors the source order. -/
def startTask (taskDir : List Char) (tasks : List TaskConfig)
    (running : List (List Char × RunningTask)) (w : World)
    (taskName : List Char) (params : List (List Char × GoVal)) :
    Except (List Char) (List Char) × List (List Char × RunningTask) × World :=
  match validateTaskName taskName with
  | .error e => (.error ("invalid task name: ".toList ++ e), running, w)
  | .ok () =>
    match tasks.find? (fun t => t.name = taskName) with
    | none => (.error ("task \x27".toList ++ taskName ++
        "\x27 not found in configuration".toList), running, w)
    | some taskConfig =>
      match validateAndProcessParameters taskConfig.parameters params with
      | .error e => (.error ("parameter validation failed: ".toList ++ e), running, w)
      | .ok validatedParams =>
        let command := substituteParameters taskConfig.command validatedParams
        let taskID := w.ids.headD []
        let w := { w with ids := w.ids.tail }
        let outputDir := taskDir ++ '/' :: taskID
        let w := { w with ops := w.ops ++ [FsOp.mkdirAll outputDir] }
        if w.mkdirFails then
          (.error "failed to create output directory".toList, running, w)
        else
          let scriptPath := outputDir ++ "/run.sh".toList
          let wrapperScript := wrapperScriptFor outputDir command
          let w := { w with ops := w.ops ++ [FsOp.writeFile scriptPath wrapperScript] }
          if w.writeFails then
            (.error "failed to create wrapper script".toList, running, w)
          else
            let w := { w with ops := w.ops ++ [FsOp.startProc scriptPath] }
            if w.startFails then
              (.error "failed to start task process".toList, running, w)
            else
              let w := { w with ops := w.ops ++ [FsOp.writePidFile (outputDir ++ "/pid".toList)] }
              let task : RunningTask :=
                { id := taskID, taskName := taskName, outputDir := outputDir,
                  maxExecutionTime :=
                    if taskConfig.maxExecutionTime > 0 then taskConfig.maxExecutionTime else 0 }
              (.ok taskID, running ++ [(taskID, task)], w)

/-! ## `api.go`: JSON canonicalisation (`normalizeJSON`)

`normalizeJSON` is `json.Unmarshal` into `interface{}` followed by
`json.Marshal`.  The parser below follows the `encoding/json` grammar
(whitespace set, number grammar, string escapes including `\uXXXX` with
surrogate pairs, last-wins duplicate object keys); `goMarshal` re-encodes
compactly with objects sorted by key bytes, as Go's `Marshal` does for
maps.  Numbers are exact rationals: within the float64-exact range they
agree with Go, and no theorem below depends on number formatting. -/

/-- JSON whitespace accepted by `encoding/json`. -/
def isJsonWs (c : Char) : Bool := c = ' ' || c = '\t' || c = '\n' || c = '\r'

/-- Drop leading JSON whitespace. -/
def skipWsGo : List Char → List Char
  | c :: cs => if isJsonWs c then skipWsGo cs else c :: cs
  | [] => []

/-- Value of one hexadecimal digit (either case), as in `\uXXXX` escapes. -/
def hexDigitVal (c : Char) : Option Nat :=
  if '0' ≤ c && c ≤ '9' then some (c.toNat - 48)
  else if 'a' ≤ c && c ≤ 'f' then some (c.toNat - 87)
  else if 'A' ≤ c && c ≤ 'F' then some (c.toNat - 55)
  else none

/-- The four-hex-digit code unit of a `\uXXXX` escape. -/
def hex4Val (a b c d : Char) : Option Nat := do
  let x ← hexDigitVal a
  let y ← hexDigitVal b
  let z ← hexDigitVal c
  let w ← hexDigitVal d
  pure (((x * 16 + y) * 16 + z) * 16 + w)

/-- String-body parser (after the opening quote): decode escapes until the
closing quote, rejecting raw control characters, mapping unpaired
surrogates to U+FFFD as Go's unquoter does. -/
def parseStrBody (fuel : Nat) (cs : List Char) : Option (List Char × List Char) :=
  match fuel with
  | 0 => none
  | fuel + 1 =>
    match cs with
    | [] => none
    | '"' :: rest => some ([], rest)
    | '\\' :: e :: rest =>
        let simple : Option (Char × List Char) :=
          match e with
          | '"' => some ('"', rest)
          | '\\' => some ('\\', rest)
          | '/' => some ('/', rest)
          | 'b' => some (Char.ofNat 8, rest)
          | 'f' => some (Char.ofNat 12, rest)
          | 'n' => some ('\n', rest)
          | 'r' => some ('\r', rest)
          | 't' => some ('\t', rest)
          | _ => none
        (match simple with
         | some (c, rest2) =>
             (parseStrBody fuel rest2).map (fun p => (c :: p.1, p.2))
         | none =>
           if e = 'u' then
             match rest with
             | a :: b :: c :: d :: rest2 =>
                 match hex4Val a b c d with
                 | none => none
                 | some n =>
                   if 0xD800 ≤ n && n < 0xDC00 then
                     -- high surrogate: look for a following low surrogate
                     match rest2 with
                     | '\\' :: 'u' :: a2 :: b2 :: c2 :: d2 :: rest3 =>
                         match hex4Val a2 b2 c2 d2 with
                         | some m =>
                             if 0xDC00 ≤ m && m < 0xE000 then
                               let cp := 0x10000 + (n - 0xD800) * 0x400 + (m - 0xDC00)
                               (parseStrBody fuel rest3).map
                                 (fun p => (Char.ofNat cp :: p.1, p.2))
                             else
                               (parseStrBody fuel rest2).map
                                 (fun p => (Char.ofNat 0xFFFD :: p.1, p.2))
                         | none =>
                             (parseStrBody fuel rest2).map
                               (fun p => (Char.ofNat 0xFFFD :: p.1, p.2))
                     | _ =>
                         (parseStrBody fuel rest2).map
                           (fun p => (Char.ofNat 0xFFFD :: p.1, p.2))
                   else if 0xDC00 ≤ n && n < 0xE000 then
                     -- unpaired low surrogate
                     (parseStrBody fuel rest2).map
                       (fun p => (Char.ofNat 0xFFFD :: p.1, p.2))
                   else
                     (parseStrBody fuel rest2).map
                       (fun p => (Char.ofNat n :: p.1, p.2))
             | _ => none
           else none)
    | c :: rest =>
        if c.toNat < 0x20 then none
        else (parseStrBody fuel rest).map (fun p => (c :: p.1, p.2))

/-- Take a maximal run of decimal digits. -/
def takeDigitRun : List Char → List Char × List Char
  | c :: cs =>
      if isDigitCh c then
        let p := takeDigitRun cs
        (c :: p.1, p.2)
      else ([], c :: cs)
  | [] => ([], [])

/-- Numeric value of a digit run. -/
def digitsVal (ds : List Char) : Nat :=
  ds.foldl (fun acc c => acc * 10 + (c.toNat - 48)) 0

/-- Number parser following the `encoding/json` grammar
`-?(0|[1-9][0-9]*)(\.[0-9]+)?([eE][+-]?[0-9]+)?`, producing the exact
rational value. -/
def parseNum (cs : List Char) : Option (ℚ × List Char) := do
  let (neg, cs) := match cs with
    | '-' :: rest => (true, rest)
    | _ => (false, cs)
  -- integer part: a single 0, or a nonzero digit followed by more digits
  let (intDs, cs) ← (match cs with
    | '0' :: rest => some (['0'], rest)
    | c :: rest =>
        if isDigitCh c then some (c :: (takeDigitRun rest).1, (takeDigitRun rest).2)
        else none
    | [] => none)
  let (fracDs, cs) := (match cs with
    | '.' :: rest =>
        match takeDigitRun rest with
        | ([], _) => none
        | (ds, rest2) => some (ds, rest2)
    | _ => some ([], cs)).getD ([], '.' :: cs)
  -- a dot with no digits is a syntax error
  if (match cs with | '.' :: _ => true | _ => false) then none else
  let (expSign, expDs, cs) ← (match cs with
    | 'e' :: rest | 'E' :: rest =>
        let (sg, rest) := match rest with
          | '+' :: r => (1, r)
          | '-' :: r => (-1, r)
          | _ => ((1 : Int), rest)
        match takeDigitRun rest with
        | ([], _) => none
        | (ds, rest2) => some (sg, ds, rest2)
    | _ => some ((1 : Int), [], cs))
  let mantissa : Nat := digitsVal (intDs ++ fracDs)
  let m : ℚ := if neg then -(mantissa : ℚ) else (mantissa : ℚ)
  let e : Int := expSign * (digitsVal expDs : Int) - (fracDs.length : Int)
  let value : ℚ :=
    if 0 ≤ e then m * (10 : ℚ) ^ e.toNat else m / (10 : ℚ) ^ (-e).toNat
  pure (value, cs)

/-- Assignment `m[k] = v` on the decoded object: overwrite an existing key,
otherwise add the entry. -/
def goMapInsert (fields : List (List Char × GoVal)) (k : List Char) (v : GoVal) :
    List (List Char × GoVal) :=
  if fields.any (fun kv => kv.1 = k) then
    fields.map (fun kv => if kv.1 = k then (k, v) else kv)
  else fields ++ [(k, v)]

mutual

/-- Value parser of `encoding/json` decoding into `interface{}`. -/
def parseVal (fuel : Nat) (cs : List Char) : Option (GoVal × List Char) :=
  match fuel with
  | 0 => none
  | fuel + 1 =>
    match skipWsGo cs with
    | 'n' :: 'u' :: 'l' :: 'l' :: rest => some (.nullv, rest)
    | 't' :: 'r' :: 'u' :: 'e' :: rest => some (.boolv true, rest)
    | 'f' :: 'a' :: 'l' :: 's' :: 'e' :: rest => some (.boolv false, rest)
    | '"' :: rest =>
        (parseStrBody (rest.length + 1) rest).map (fun p => (.str p.1, p.2))
    | '[' :: rest =>
        (match skipWsGo rest with
         | ']' :: rest2 => some (.arr [], rest2)
         | _ => (parseArrItems fuel (skipWsGo rest)).map (fun p => (.arr p.1, p.2)))
    | '{' :: rest =>
        (match skipWsGo rest with
         | '}' :: rest2 => some (.obj [], rest2)
         | _ => (parseObjItems fuel (skipWsGo rest) []).map (fun p => (.obj p.1, p.2)))
    | rest => (parseNum rest).map (fun p => (.num p.1, p.2))

/-- Comma-separated array elements, after at least one is known to follow. -/
def parseArrItems (fuel : Nat) (cs : List Char) : Option (List GoVal × List Char) :=
  match fuel with
  | 0 => none
  | fuel + 1 => do
    let (v, rest) ← parseVal fuel cs
    match skipWsGo rest with
    | ',' :: rest2 =>
        (parseArrItems fuel rest2).map (fun p => (v :: p.1, p.2))
    | ']' :: rest2 => some ([v], rest2)
    | _ => none

/-- Comma-separated object members, after at least one is known to follow;
duplicate keys behave like map assignment (last wins). -/
def parseObjItems (fuel : Nat) (cs : List Char) (acc : List (List Char × GoVal)) :
    Option (List (List Char × GoVal) × List Char) :=
  match fuel with
  | 0 => none
  | fuel + 1 =>
    match skipWsGo cs with
    | '"' :: rest => do
        let (key, rest2) ← parseStrBody (rest.length + 1) rest
        match skipWsGo rest2 with
        | ':' :: rest3 => do
            let (v, rest4) ← parseVal fuel rest3
            let acc := goMapInsert acc key v
            match skipWsGo rest4 with
            | ',' :: rest5 => parseObjItems fuel rest5 acc
            | '}' :: rest5 => some (acc, rest5)
            | _ => none
        | _ => none
    | _ => none

end

/-- `json.Unmarshal` of a complete payload into `interface{}`: one value,
then only trailing whitespace. -/
def jsonUnmarshal (s : List Char) : Option GoVal :=
  match parseVal (s.length + 1) s with
  | some (v, rest) => if (skipWsGo rest).isEmpty then some v else none
  | none => none

/-! ### Re-encoding (`json.Marshal` of the decoded value) -/

/-- Byte-lexicographic key order (Go sorts map keys as strings; UTF-8 byte
order agrees with code-point order). -/
def keyLe : List Char → List Char → Bool
  | [], _ => true
  | _ :: _, [] => false
  | x :: xs, y :: ys => if x = y then keyLe xs ys else decide (x < y)

/-- Insert an entry into a key-sorted field list. -/
def insertByKey (kv : List Char × GoVal) :
    List (List Char × GoVal) → List (List Char × GoVal)
  | [] => [kv]
  | kv2 :: rest =>
      if keyLe kv.1 kv2.1 then kv :: kv2 :: rest else kv2 :: insertByKey kv rest

/-- Sort object fields by key (insertion sort). -/
def sortFieldsByKey (l : List (List Char × GoVal)) : List (List Char × GoVal) :=
  l.foldr insertByKey []

mutual

/-- Recursively sort every object's fields by key: the part of Go's
`Marshal` that makes map encoding deterministic. -/
def deepSort : GoVal → GoVal
  | .arr xs => .arr (deepSortList xs)
  | .obj fs => .obj (sortFieldsByKey (deepSortFields fs))
  | v => v

def deepSortList : List GoVal → List GoVal
  | [] => []
  | v :: rest => deepSort v :: deepSortList rest

def deepSortFields : List (List Char × GoVal) → List (List Char × GoVal)
  | [] => []
  | (k, v) :: rest => (k, deepSort v) :: deepSortFields rest

end

/-- Lowercase hex digit. -/
def hexCh (d : Nat) : Char :=
  if d < 10 then Char.ofNat (48 + d) else Char.ofNat (87 + d)

/-- Four lowercase hex digits of a code unit, as in `\u00xx`. -/
def hex4Chars (n : Nat) : List Char :=
  [hexCh (n / 4096 % 16), hexCh (n / 256 % 16), hexCh (n / 16 % 16), hexCh (n % 16)]

/-- Go `Marshal` string escaping (the default HTML-safe encoder): quote,
backslash, `\n` `\r` `\t`, other control characters as `\u00xx`, and the
HTML-sensitive `<` `>` `&` and U+2028/U+2029 as `\u` escapes. -/
def escapeJSONChar (c : Char) : List Char :=
  if c = '"' then ['\\', '"']
  else if c = '\\' then ['\\', '\\']
  else if c = '\n' then ['\\', 'n']
  else if c = '\r' then ['\\', 'r']
  else if c = '\t' then ['\\', 't']
  else if c = '<' || c = '>' || c = '&' then '\\' :: 'u' :: hex4Chars c.toNat
  else if c.toNat < 0x20 then '\\' :: 'u' :: hex4Chars c.toNat
  else if c.toNat = 0x2028 || c.toNat = 0x2029 then '\\' :: 'u' :: hex4Chars c.toNat
  else [c]

/-- Render a JSON string literal with Go's escaping. -/
def renderJSONString (s : List Char) : List Char :=
  '"' :: s.foldr (fun c acc => escapeJSONChar c ++ acc) ['"']

mutual

/-- Compact rendering of an (already key-sorted) decoded value, as
`json.Marshal` emits it. -/
def render : GoVal → List Char
  | .nullv => "null".toList
  | .boolv true => "true".toList
  | .boolv false => "false".toList
  | .num q => formatFloatChars q
  | .intv n => intDecChars n
  | .int64v n => intDecChars n
  | .str s => renderJSONString s
  | .arr [] => "[]".toList
  | .arr (v :: rest) => '[' :: render v ++ renderItems rest ++ [']']
  | .obj [] => "\x7b\x7d".toList
  | .obj ((k, v) :: rest) =>
      '{' :: renderJSONString k ++ ':' :: render v ++ renderFields rest ++ ['}']

def renderItems : List GoVal → List Char
  | [] => []
  | v :: rest => ',' :: render v ++ renderItems rest

def renderFields : List (List Char × GoVal) → List Char
  | [] => []
  | (k, v) :: rest => ',' :: renderJSONString k ++ ':' :: render v ++ renderFields rest

end

/-- `json.Marshal` of a decoded `interface{}` value: sort map keys at every
level, then render compactly. -/
def goMarshal (v : GoVal) : List Char := render (deepSort v)

/-- `normalizeJSON` from `api.go`: parse, then re-encode in compact
key-sorted form; `none` models the unmarshal error path. -/
def normalizeJSON (body : List Char) : Option (List Char) :=
  (jsonUnmarshal body).map goMarshal

/-! ## `api.go`: SHA-1 body binding

`computeSHA1Hex` is Go's `crypto/sha1` over the normalized body bytes,
hex-encoded lowercase.  SHA-1 is implemented here over `List Nat` bytes
with `Nat` arithmetic reduced modulo `2^32`. -/

/-- UTF-8 encoding of one character, as Go and Lean store strings. -/
def utf8Char (c : Char) : List Nat :=
  let n := c.toNat
  if n < 0x80 then [n]
  else if n < 0x800 then [0xC0 + n / 64, 0x80 + n % 64]
  else if n < 0x10000 then [0xE0 + n / 4096, 0x80 + n / 64 % 64, 0x80 + n % 64]
  else [0xF0 + n / 262144, 0x80 + n / 4096 % 64, 0x80 + n / 64 % 64, 0x80 + n % 64]

/-- UTF-8 bytes of a string. -/
def utf8Bytes (s : List Char) : List Nat :=
  s.foldr (fun c acc => utf8Char c ++ acc) []

/-- Truncate to a 32-bit word. -/
def w32 (n : Nat) : Nat := n % 4294967296

/-- 32-bit left rotation. -/
def rotl32 (k x : Nat) : Nat :=
  w32 ((x * 2 ^ k) + x / 2 ^ (32 - k))

/-- SHA-1 message padding: a `0x80` byte, zeros to 56 mod 64, then the
original bit length as eight big-endian bytes. -/
def sha1Pad (msg : List Nat) : List Nat :=
  let padLen := (120 - (msg.length + 1) % 64) % 64
  let bitLen := msg.length * 8
  msg ++ 0x80 :: List.replicate padLen 0 ++
    [bitLen / 2 ^ 56 % 256, bitLen / 2 ^ 48 % 256, bitLen / 2 ^ 40 % 256,
     bitLen / 2 ^ 32 % 256, bitLen / 2 ^ 24 % 256, bitLen / 2 ^ 16 % 256,
     bitLen / 2 ^ 8 % 256, bitLen % 256]

/-- Fuel-driven block splitter (structural recursion; one block per step). -/
def toBlocksAux : Nat → List Nat → List (List Nat)
  | 0, _ => []
  | fuel + 1, bytes =>
      if bytes.length ≤ 64 then (if bytes.isEmpty then [] else [bytes])
      else bytes.take 64 :: toBlocksAux fuel (bytes.drop 64)

/-- Split the padded message into 64-byte blocks. -/
def toBlocks (bytes : List Nat) : List (List Nat) :=
  toBlocksAux (bytes.length + 1) bytes

/-- The sixteen initial 32-bit words of one block (big-endian). -/
def blockWords : List Nat → List Nat
  | b0 :: b1 :: b2 :: b3 :: rest =>
      (((b0 * 256 + b1) * 256 + b2) * 256 + b3) :: blockWords rest
  | _ => []

/-- Extend the schedule to `n` words: each new word is the 1-rotation of the
xor of the words 3, 8, 14 and 16 back. -/
def extendWords (ws : List Nat) (n : Nat) : List Nat :=
  match n with
  | 0 => ws
  | n + 1 =>
      let ws := extendWords ws n
      let len := ws.length
      ws ++ [rotl32 1 ((((ws.getD (len - 3) 0).xor (ws.getD (len - 8) 0)).xor
        (ws.getD (len - 14) 0)).xor (ws.getD (len - 16) 0))]

/-- The round function and constant for round `i`. -/
def sha1FK (i b c d : Nat) : Nat × Nat :=
  if i < 20 then ((b.land c).lor ((w32 (4294967295 - b)).land d), 0x5A827999)
  else if i < 40 then ((b.xor c).xor d, 0x6ED9EBA1)
  else if i < 60 then (((b.land c).lor (b.land d)).lor (c.land d), 0x8F1BBCDC)
  else ((b.xor c).xor d, 0xCA62C1D6)

/-- Compression rounds over one block's schedule: `n` rounds remaining,
round index `i` (structural recursion on the countdown). -/
def sha1Rounds (ws : List Nat) : Nat → Nat → Nat → Nat → Nat → Nat → Nat →
    Nat × Nat × Nat × Nat × Nat
  | 0, _, a, b, c, d, e => (a, b, c, d, e)
  | n + 1, i, a, b, c, d, e =>
      let fk := sha1FK i b c d
      let temp := w32 (rotl32 5 a + fk.1 + e + fk.2 + ws.getD i 0)
      sha1Rounds ws n (i + 1) temp a (rotl32 30 b) c d

/-- Process one 64-byte block into the running state. -/
def sha1Block (h : Nat × Nat × Nat × Nat × Nat) (block : List Nat) :
    Nat × Nat × Nat × Nat × Nat :=
  let (h0, h1, h2, h3, h4) := h
  let ws := extendWords (blockWords block) 64
  let (a, b, c, d, e) := sha1Rounds ws 80 0 h0 h1 h2 h3 h4
  (w32 (h0 + a), w32 (h1 + b), w32 (h2 + c), w32 (h3 + d), w32 (h4 + e))

/-- SHA-1 digest (twenty bytes) of a byte sequence. -/
def sha1Bytes (msg : List Nat) : List Nat :=
  let (h0, h1, h2, h3, h4) :=
    (toBlocks (sha1Pad msg)).foldl sha1Block
      (0x67452301, 0xEFCDAB89, 0x98BADCFE, 0x10325476, 0xC3D2E1F0)
  [h0, h1, h2, h3, h4].foldr
    (fun w acc => (w / 2 ^ 24 % 256) :: (w / 2 ^ 16 % 256) :: (w / 2 ^ 8 % 256) :: (w % 256) :: acc)
    []

/-- Lowercase hex encoding of a byte sequence (`hex.EncodeToString`). -/
def bytesToHex (bs : List Nat) : List Char :=
  bs.foldr (fun b acc => hexCh (b / 16 % 16) :: hexCh (b % 16) :: acc) []

/-- `computeSHA1Hex` from `api.go`: SHA-1 of the data, lowercase hex. -/
def computeSHA1Hex (data : List Char) : List Char :=
  bytesToHex (sha1Bytes (utf8Bytes data))

/-! ## `auth.go`: claim validation in `validateJWT`

`validateJWT` parses the token with `jwt.ParseWithClaims` (HMAC method
enforced) and then applies its own expiry and audience checks.  The model
covers the claim checks on an already signature-verified token: the
`golang-jwt/v5` parser itself rejects a present-and-expired `exp` (valid
only while `now < exp`) and does not require `exp` to be present; the
handler's own check `ExpiresAt != nil && ExpiresAt.Before(now)` is
subsumed for `exp < now` and adds nothing for absent `exp`.  Time is in
integer seconds. -/

/-- The JWT claims of `auth.go` (`task_id` plus registered claims used by
the service; `body_sha1` rides along for the submission endpoint). -/
structure Claims where
  taskID : List Char := []
  expiresAt : Option Int := none
  audience : List (List Char) := []
  bodySHA1 : List Char := []
deriving DecidableEq

/-- Errors surfaced by `validateJWT` after a signature-valid parse. -/
inductive AuthError where
  | expired
  | audienceMismatch (expected : List Char)
deriving DecidableEq

/-- The expiry and audience validation of `validateJWT` (`auth.go`).
`expectedAudience = none` models the `nil` pointer (skip the audience
check); `some []` is the API policy, `some "viewer"` the viewer policy. -/
def validateJWTClaims (claims : Claims) (now : Int)
    (expectedAudience : Option (List Char)) : Except AuthError Claims :=
  -- library check (`jwt/v5`): a present `exp` must lie strictly in the future;
  -- an absent `exp` is not required.  The handler's explicit
  -- `ExpiresAt.Before(now)` re-check is subsumed.
  match claims.expiresAt with
  | some e =>
      if e ≤ now then .error .expired
      else validateAudience claims expectedAudience
  | none => validateAudience claims expectedAudience

where
  validateAudience (claims : Claims) (expectedAudience : Option (List Char)) :
      Except AuthError Claims :=
    match expectedAudience with
    | none => .ok claims
    | some expected =>
        if expected = [] then
          -- API token: no audience, or an empty first entry
          match claims.audience with
          | [] => .ok claims
          | a0 :: _ => if a0 ≠ [] then .error (.audienceMismatch []) else .ok claims
        else
          -- viewer token: the first audience entry must match
          match claims.audience with
          | [] => .error (.audienceMismatch expected)
          | a0 :: _ => if a0 = expected then .ok claims else .error (.audienceMismatch expected)

/-! ## `security.go`: `validateTaskID` and `github.com/google/uuid`

`validateTaskID` is `uuid.Parse(s) == nil`.  `uuid.Parse` accepts four
shapes, switching on the length: 36 (`xxxxxxxx-xxxx-xxxx-xxxx-xxxxxxxxxxxx`),
45 (a case-insensitive `urn:uuid:` prefix before the 36 form), 38 (any
single leading and trailing byte around the 36 form — the library drops
`s[0]` and never re-checks the supposed braces), and 32 (bare hex). -/

/-- One byte from two hex digits (`xtob`). -/
def xtob (c1 c2 : Char) : Option Nat := do
  let hi ← hexDigitVal c1
  let lo ← hexDigitVal c2
  pure (hi * 16 + lo)

/-- Decode the bytes found at the given start positions: `xtob` of the two
characters at each position, failing if any pair is not hex.  This is the
decode loop of `uuid.Parse` over its position table. -/
def xtobList (cs : List Char) : List Nat → Option (List Nat)
  | [] => some []
  | x :: rest =>
      match xtob (cs.getD x 'x') (cs.getD (x + 1) 'x') with
      | none => none
      | some b =>
          match xtobList cs rest with
          | none => none
          | some bs => some (b :: bs)

/-- The start positions of the sixteen hex pairs in the 36-character
hyphenated form (the `[16]int` table in `uuid.Parse`). -/
def uuidHexPositions : List Nat :=
  [0, 2, 4, 6, 9, 11, 14, 16, 19, 21, 24, 26, 28, 30, 32, 34]

/-- Parse the 36-character hyphenated body
`xxxxxxxx-xxxx-xxxx-xxxx-xxxxxxxxxxxx` into sixteen bytes; characters
after the first 36 are ignored, as in the library's 38-byte case.  Callers
pass at least 36 characters, so the out-of-range default never matters. -/
def parseHyphenated (cs : List Char) : Option (List Nat) :=
  if cs.getD 8 'x' = '-' && cs.getD 13 'x' = '-' &&
     cs.getD 18 'x' = '-' && cs.getD 23 'x' = '-' then
    xtobList cs uuidHexPositions
  else none

/-- Parse 32 bare hex characters into sixteen bytes (`uuid.Parse`, length-32
case: pairs at positions `2i`, `2i+1`). -/
def parseBareHex (cs : List Char) : Option (List Nat) :=
  xtobList cs [0, 2, 4, 6, 8, 10, 12, 14, 16, 18, 20, 22, 24, 26, 28, 30]

/-- ASCII-case-insensitive equality, the effect of `strings.EqualFold` on
the literal `urn:uuid:` (whose fold orbits are ASCII-only). -/
def asciiEqFold (a b : List Char) : Bool :=
  match a, b with
  | [], [] => true
  | x :: xs, y :: ys =>
      (x = y || (isAlphaCh x && isAlphaCh y && (x.toNat % 32 = y.toNat % 32))) &&
      asciiEqFold xs ys
  | _, _ => false

/-- `uuid.Parse` from `github.com/google/uuid`. -/
def uuidParse (cs : List Char) : Option (List Nat) :=
  if cs.length = 36 then parseHyphenated cs
  else if cs.length = 45 then
    if asciiEqFold (cs.take 9) "urn:uuid:".toList then parseHyphenated (cs.drop 9)
    else none
  else if cs.length = 38 then parseHyphenated (cs.drop 1)
  else if cs.length = 32 then parseBareHex cs
  else none

/-- `validateTaskID` from `security.go`: `uuid.Parse` succeeds. -/
def validateTaskID (taskID : List Char) : Bool :=
  (uuidParse taskID).isSome

/-- `UUID.String` from `github.com/google/uuid`: the canonical 36-character
hyphenated lowercase rendering of sixteen bytes, each byte as two lowercase
hex digits at its fixed position (and `[]` on a list that is not sixteen
bytes, which `uuid.New` never produces). -/
def uuidToString (bytes : List Nat) : List Char :=
  if bytes.length = 16 then
    let b := fun i => bytes.getD i 0
    hexCh (b 0 / 16 % 16) :: hexCh (b 0 % 16) :: hexCh (b 1 / 16 % 16) :: hexCh (b 1 % 16) ::
    hexCh (b 2 / 16 % 16) :: hexCh (b 2 % 16) :: hexCh (b 3 / 16 % 16) :: hexCh (b 3 % 16) ::
    '-' :: hexCh (b 4 / 16 % 16) :: hexCh (b 4 % 16) :: hexCh (b 5 / 16 % 16) :: hexCh (b 5 % 16) ::
    '-' :: hexCh (b 6 / 16 % 16) :: hexCh (b 6 % 16) :: hexCh (b 7 / 16 % 16) :: hexCh (b 7 % 16) ::
    '-' :: hexCh (b 8 / 16 % 16) :: hexCh (b 8 % 16) :: hexCh (b 9 / 16 % 16) :: hexCh (b 9 % 16) ::
    '-' :: hexCh (b 10 / 16 % 16) :: hexCh (b 10 % 16) :: hexCh (b 11 / 16 % 16) :: hexCh (b 11 % 16) ::
    hexCh (b 12 / 16 % 16) :: hexCh (b 12 % 16) :: hexCh (b 13 / 16 % 16) :: hexCh (b 13 % 16) ::
    hexCh (b 14 / 16 % 16) :: hexCh (b 14 % 16) :: hexCh (b 15 / 16 % 16) :: hexCh (b 15 % 16) :: []
  else []

/-! ## `api.go`: the post-authentication pipeline of `handleStartTask`

The model starts after `validateJWT` succeeded and the method check passed
(both depend only on request plumbing): read body, normalize, compare the
SHA-1 against the token's `body_sha1`, decode, validate `task_name`, call
`StartTask`, map errors.  The 200 response carries the task id (the viewer
URL and token are outside the modelled claims). -/

/-- Go struct-field lookup during `json.Unmarshal`: exact name first, then
an ASCII-case-insensitive match. -/
def lookupField (fields : List (List Char × GoVal)) (name : List Char) : Option GoVal :=
  match fields.find? (fun kv => kv.1 = name) with
  | some kv => some kv.2
  | none =>
      match fields.find? (fun kv => asciiEqFold kv.1 name) with
      | some kv => some kv.2
      | none => none

/-- Decoding the body into `StartTaskRequest`.  The handler only decodes
bodies that `normalizeJSON` already accepted, so decoding the same single
JSON value with `json.Decoder` is modelled by re-using `jsonUnmarshal`:
`task_name` must be a string (absent or `null` gives the zero value),
`parameters` an object or `null`/absent (`nil` map). -/
def decodeStartTaskRequest (body : List Char) :
    Option (List Char × List (List Char × GoVal)) :=
  match jsonUnmarshal body with
  | some (.obj fs) => do
      let tn ← (match lookupField fs "task_name".toList with
        | none => some []
        | some (.str s) => some s
        | some .nullv => some []
        | some _ => none)
      let ps ← (match lookupField fs "parameters".toList with
        | none => some []
        | some .nullv => some []
        | some (.obj pfs) => some pfs
        | some _ => none)
      some (tn, ps)
  | some .nullv => some ([], [])   -- `null` decodes into the zero struct
  | some _ => none
  | none => none

/-- An HTTP response of the submission endpoint: status code and the
`error` string (or, for 200, the returned task id). -/
structure HttpResp where
  status : Nat
  body : List Char
deriving DecidableEq

/-- `handleStartTask` from `api.go`, after authentication and the method
check: body integrity gate, decoding, and the error mapping around
`TaskManager.StartTask`. -/
def handleStartTaskAfterAuth (taskDir : List Char) (tasks : List TaskConfig)
    (running : List (List Char × RunningTask)) (w : World)
    (claims : Claims) (body : List Char) :
    HttpResp × List (List Char × RunningTask) × World :=
  match normalizeJSON body with
  | none => (⟨400, "Invalid JSON format".toList⟩, running, w)
  | some normalizedBody =>
    let bodyHash := computeSHA1Hex normalizedBody
    if claims.bodySHA1 = [] ∨ claims.bodySHA1 ≠ bodyHash then
      (⟨401, "Unauthorized: request body does not match token".toList⟩, running, w)
    else
      match decodeStartTaskRequest body with
      | none => (⟨400, "Invalid request format".toList⟩, running, w)
      | some (taskName, params) =>
        if taskName = [] then (⟨400, "task_name is required".toList⟩, running, w)
        else
          match startTask taskDir tasks running w taskName params with
          | (.error e, running2, w2) =>
              (⟨500, "Failed to start task: ".toList ++ e⟩, running2, w2)
          | (.ok taskID, running2, w2) => (⟨200, taskID⟩, running2, w2)

/-! ## `websocket.go`: `tailFile` as a trace function

`tailFile` runs three phases: wait up to 60 seconds for the file to exist
(one `os.Stat` per second, a non-blocking cancellation check at the top of
each iteration), drain the existing content line by line, then poll every
200 ms and emit newly appended complete lines.  The environment fixes what
the filesystem and the context return at each step; the result is the list
of messages written to the sink (sink writes themselves are modelled as
succeeding; a failing sink only truncates the trace in the source).  The
follow loop runs until cancellation; the model's trace covers the ticks up
to the point the environment ends (the connection closing). -/

/-- One frame written by the tailer (`WebSocketMessage`). -/
structure TailMsg where
  type : List Char
  data : List Char
deriving DecidableEq

/-- The environment a `tailFile` run observes. -/
structure TailEnv where
  /-- stream label: `"stdout"` or `"stderr"` -/
  label : List Char
  /-- result of the `os.Stat` existence probe in wait iteration `i` -/
  statOk : Nat → Bool
  /-- the context-cancellation probe, indexed by a global check counter -/
  cancel : Nat → Bool
  /-- whether `os.Open` succeeds once the file exists -/
  openOk : Bool
  /-- complete lines present when the drain phase starts (without newlines) -/
  initialLines : List (List Char)
  /-- newly appended complete lines observed at each follow poll -/
  followTicks : List (List (List Char))

/-- Outcome of the wait-for-create loop. -/
inductive WaitOutcome where
  | cancelled
  | found
  | notFound
deriving DecidableEq

/-- The wait-for-create loop: up to 60 iterations, each doing a cancellation
check then a stat; returns the outcome and the next check-counter value. -/
def waitPhase (env : TailEnv) : Nat → Nat → Nat → WaitOutcome × Nat
  | 0, _, ctr => (.notFound, ctr)
  | fuel + 1, i, ctr =>
      if env.cancel ctr then (.cancelled, ctr + 1)
      else if env.statOk i then (.found, ctr + 1)
      else waitPhase env fuel (i + 1) (ctr + 1)

/-- Emit a list of lines with a cancellation check before each one; returns
the emitted messages, the next counter, and whether cancellation fired. -/
def emitLines (env : TailEnv) : List (List Char) → Nat → List TailMsg × Nat × Bool
  | [], ctr => ([], ctr, false)
  | line :: rest, ctr =>
      if env.cancel ctr then ([], ctr + 1, true)
      else
        let (ms, ctr2, ab) := emitLines env rest (ctr + 1)
        (⟨env.label, line ++ ['\n']⟩ :: ms, ctr2, ab)

/-- The follow loop over the environment's polls: cancellation check at the
tick, then the tick's new lines (each with its own check). -/
def followPhase (env : TailEnv) : List (List (List Char)) → Nat → List TailMsg
  | [], _ => []
  | tick :: rest, ctr =>
      if env.cancel ctr then []
      else
        let (ms, ctr2, ab) := emitLines env tick (ctr + 1)
        if ab then ms else ms ++ followPhase env rest ctr2

/-- The full `tailFile` trace: wait for the file, then either the single
waiting notice, or the drain of existing lines followed by the poll loop. -/
def tailFileTrace (env : TailEnv) : List TailMsg :=
  match waitPhase env 60 0 0 with
  | (.cancelled, _) => []
  | (.notFound, _) => [⟨env.label, "Waiting for output file...\n".toList⟩]
  | (.found, ctr) =>
      if !env.openOk then []
      else
        let (ms, ctr2, ab) := emitLines env env.initialLines ctr
        if ab then ms else ms ++ followPhase env env.followTicks ctr2

/-! ## The Timeout Engine

Modelled from the spec: the Timeout Engine (`handleTimeout` and its caller
loop) is not part of the sources; the repository only ships its tests.
Following §4.5 of the specification, it is a state machine over
`\x7bRunning, Terminated, Killed, Done\x7d`: while Running, a liveness tick that
finds the process dead moves to Done; the deadline firing while Running
sets `terminated`, emits a `timeout` message with the PID, delivers TERM
(15) and moves to Terminated; if the 30-second grace window ends with the
process alive, it sets `killed`, emits a second `timeout` message,
delivers KILL (9) and moves to Killed.  Flag mutations happen atomically
with their transition (the source takes the Supervisor lock around them). -/

/-- Engine phases (spec §4.5). -/
inductive EnginePhase where
  | running
  | terminated
  | killed
  | done
deriving DecidableEq

/-- Events the engine reacts to: a liveness poll, the per-task deadline
firing, and the end of the 30-second grace window. -/
inductive EngineEvent where
  | tick (alive : Bool)
  | deadline (alive : Bool)
  | graceOver (alive : Bool)
deriving DecidableEq

/-- Engine state: phase, the task's two flags, the emitted `timeout`
messages (with the original PID), and the delivered POSIX signals. -/
structure EngineState where
  phase : EnginePhase := .running
  terminated : Bool := false
  killed : Bool := false
  timeoutMsgs : List Nat := []   -- PIDs carried by emitted timeout messages
  signals : List Nat := []       -- 15 = TERM, 9 = KILL
deriving DecidableEq

/-- Modelled from the spec: one transition of the Timeout Engine for the
task with PID `pid`. -/
def engineStep (pid : Nat) (s : EngineState) (ev : EngineEvent) : EngineState :=
  match s.phase, ev with
  | .running, .tick false => { s with phase := .done }
  | .running, .deadline true =>
      { s with
        phase := .terminated
        terminated := true
        timeoutMsgs := s.timeoutMsgs ++ [pid]
        signals := s.signals ++ [15] }
  | .running, .deadline false => { s with phase := .done }
  | .terminated, .tick false => { s with phase := .done }
  | .terminated, .graceOver true =>
      { s with
        phase := .killed
        killed := true
        timeoutMsgs := s.timeoutMsgs ++ [pid]
        signals := s.signals ++ [9] }
  | .terminated, .graceOver false => { s with phase := .done }
  | .killed, .tick false => { s with phase := .done }
  | _, _ => s

/-- Modelled from the spec: an engine run over a sequence of events. -/
def engineRun (pid : Nat) (evs : List EngineEvent) : EngineState :=
  evs.foldl (engineStep pid) {}

/-! ## Supporting definitions for the verification -/

/-- Whether an `Except` is an error. -/
def exceptIsError {α : Type} (x : Except (List Char) α) : Bool :=
  match x with
  | .error _ => true
  | .ok _ => false

/-- The precondition under which `StartTask` fails during its validation
prologue: bad task name, unknown task, or parameter validation failure
(each guard is the corresponding source check). -/
def startTaskValidationFails (tasks : List TaskConfig) (name : List Char)
    (params : List (List Char × GoVal)) : Bool :=
  exceptIsError (validateTaskName name) ||
  (match tasks.find? (fun t => t.name = name) with
   | none => true
   | some tc => exceptIsError (validateAndProcessParameters tc.parameters params))

/-- Fixture: a configuration with the parameterless `echo` task. -/
def echoTasks : List TaskConfig :=
  [{ name := "echo".toList, command := "echo hello".toList }]

/-- Fixture: the canonical form of the happy-path submission body. -/
def c1CanonicalBody : List Char := "\x7b\"task_name\":\"echo\"\x7d".toList

/-- Fixture: the same body with extra whitespace, as a client may send it. -/
def c1Body : List Char := "\x7b \"task_name\" : \"echo\" \x7d".toList

/-- Fixture: an API token bound to the canonical body digest. -/
def c1Claims : Claims := { bodySHA1 := computeSHA1Hex c1CanonicalBody }

/-- Fixture: a fresh-identifier supply for the happy-path run. -/
def c1World : World := { ids := ["11111111-2222-3333-4444-555555555555".toList] }

/-- Fixture: a submission body with keys in one order, compact. -/
def c1KeyOrderA : List Char :=
  "\x7b\"parameters\":\x7b\"msg\":\"hi\"\x7d,\"task_name\":\"p\"\x7d".toList

/-- Fixture: the same payload with keys permuted and whitespace inserted. -/
def c1KeyOrderB : List Char :=
  "\x7b \"task_name\" : \"p\" , \"parameters\" : \x7b \"msg\" : \"hi\" \x7d \x7d".toList

/-- Fixture: a task `p` with one required string parameter `msg` (the
missing-required-parameter scenario of the spec). -/
def paramTasks : List TaskConfig :=
  [{ name := "p".toList, command := "echo \x7b\x7bmsg\x7d\x7d".toList,
     parameters := [{ name := "msg".toList, type := "string".toList, optional := false }] }]

/-- Fixture: the submission body `\x7b"task_name":"p"\x7d` that omits `msg`. -/
def c3Body : List Char := "\x7b\"task_name\":\"p\"\x7d".toList

/-- Fixture: an API token correctly bound to `c3Body`. -/
def c3Claims : Claims := { bodySHA1 := computeSHA1Hex c3Body }

/-- Fixture: identifier supply for the missing-parameter run. -/
def c3World : World := { ids := ["aaaaaaaa-bbbb-cccc-dddd-eeeeeeeeeeee".toList] }

/-- A string without brace characters.  Substitution markers built from
brace-free keys can never overlap one another in a template, which is what
makes absent-key placeholders survive a substitution pass. -/
def braceFree (s : List Char) : Bool := s.all (fun c => c ≠ '{' && c ≠ '}')

/-- Fixture: the rational one half, written out structurally so that the
kernel can evaluate its fields (`1 / 2` via `Rat.div` does not reduce). -/
def halfQ : ℚ := ⟨1, 2, by norm_num, by norm_num⟩

/-- Fixture: the integer-valued float64 `1e20`, which exceeds int64 range
(written structurally for kernel evaluation). -/
def q1e20 : ℚ := ⟨100000000000000000000, 1, by norm_num, by norm_num⟩

/-- Fixture: a tail environment whose file never appears and whose context
is never cancelled. -/
def c9EnvNoFile : TailEnv :=
  { label := "stdout".toList, statOk := fun _ => false, cancel := fun _ => false,
    openOk := true, initialLines := [], followTicks := [] }

/-- Fixture: a tail environment whose file appears at the fourth probe,
with one existing line and one line appended during the follow phase. -/
def c9EnvFound : TailEnv :=
  { label := "stdout".toList, statOk := fun i => decide (i = 3),
    cancel := fun _ => false, openOk := true,
    initialLines := ["hello".toList], followTicks := [["world".toList]] }

/-- The invariant the Timeout Engine maintains across steps. -/
def engineInv (s : EngineState) : Prop :=
  (s.killed = true → s.terminated = true) ∧
  ((s.phase = .terminated ∨ s.phase = .killed) → s.terminated = true)

/-! ## Helper lemmas -/

theorem natDecCharsAux_digits (fuel : Nat) :
    ∀ n, n < fuel → natDecCharsAux fuel n ≠ [] ∧
      (natDecCharsAux fuel n).all isDigitCh = true := by
  induction fuel with
  | zero => intro n h; omega
  | succ fuel ih =>
      intro n _
      have hdig : ∀ d, d < 10 → isDigitCh (digitCh d) = true := by decide
      by_cases h10 : n < 10
      · simp [natDecCharsAux, h10, List.all_cons, hdig n h10]
      · have hrec := ih (n / 10) (by omega)
        simp only [natDecCharsAux, if_neg h10]
        constructor
        · simp
        · rw [List.all_append]
          simp [hrec.2, hdig (n % 10) (by omega)]

theorem intRegexMatch_natDecChars (n : Nat) : intRegexMatch (natDecChars n) = true := by
  have h := natDecCharsAux_digits (n + 1) n (by omega)
  simp only [intRegexMatch, natDecChars, Bool.and_eq_true, h.2, and_true]
  cases he : natDecCharsAux (n + 1) n with
  | nil => exact absurd he h.1
  | cons c cs => simp [List.isEmpty]

theorem replaceAllAux_of_not_contains (pat rep : List Char) :
    ∀ (fuel : Nat) (s : List Char), containsSub s pat = false →
      replaceAllAux pat rep fuel s = s := by
  intro fuel
  induction fuel with
  | zero => intro s _; rfl
  | succ fuel ih =>
      intro s hs
      cases s with
      | nil => rfl
      | cons c cs =>
          rw [containsSub] at hs
          by_cases hpre : pat.isPrefixOf (c :: cs)
          · rw [if_pos hpre] at hs; exact absurd hs (by simp)
          · rw [if_neg hpre] at hs
            have hcond : (pat ≠ [] && pat.isPrefixOf (c :: cs)) = false := by
              simp [hpre]
            simp only [replaceAllAux, hcond]
            simp [ih cs hs]

theorem replaceAll_of_not_contains (s pat rep : List Char)
    (h : containsSub s pat = false) : replaceAll s pat rep = s :=
  replaceAllAux_of_not_contains pat rep s.length s h

theorem subst_eq_self_of_no_markers :
    ∀ (params : List (List Char × List Char)) (s : List Char),
      (∀ kv ∈ params, containsSub s (marker kv.1) = false) →
      substituteParameters s params = s := by
  intro params
  induction params with
  | nil => intro s _; rfl
  | cons kv rest ih =>
      intro s h
      have h0 := h kv (by simp)
      simp only [substituteParameters, List.foldl_cons,
        replaceAll_of_not_contains s (marker kv.1) kv.2 h0]
      exact ih s (fun kv2 hm => h kv2 (by simp [hm]))

theorem engineStep_preserves_inv (pid : Nat) (s : EngineState) (ev : EngineEvent)
    (h : engineInv s) : engineInv (engineStep pid s ev) := by
  obtain ⟨h1, h2⟩ := h
  cases ev with
  | tick alive =>
      cases alive <;> cases hph : s.phase <;>
        simp_all [engineStep, engineInv]
  | deadline alive =>
      cases alive <;> cases hph : s.phase <;>
        simp_all [engineStep, engineInv]
  | graceOver alive =>
      cases alive <;> cases hph : s.phase <;>
        simp_all [engineStep, engineInv]

theorem engineRun_inv (pid : Nat) (evs : List EngineEvent) :
    engineInv (engineRun pid evs) := by
  have main : ∀ (l : List EngineEvent) (s : EngineState), engineInv s →
      engineInv (l.foldl (engineStep pid) s) := by
    intro l
    induction l with
    | nil => intro s hs; exact hs
    | cons e rest ih =>
        intro s hs
        exact ih (engineStep pid s e) (engineStep_preserves_inv pid s e hs)
  exact main evs {} (by simp [engineInv])

theorem containsSub_append_right (pat y : List Char) (h : containsSub y pat = true) :
    ∀ x : List Char, containsSub (x ++ y) pat = true := by
  intro x
  induction x with
  | nil => simpa using h
  | cons c x ih =>
      rw [List.cons_append, containsSub]
      split
      · rfl
      · exact ih

theorem containsSub_nil (pat : List Char) (hp : pat ≠ []) :
    containsSub [] pat = false := by
  rw [containsSub]
  cases pat with
  | nil => exact absurd rfl hp
  | cons c cs => simp [List.isPrefixOf]

theorem containsSub_of_isPrefixOf {pat s : List Char}
    (h : pat.isPrefixOf s = true) : containsSub s pat = true := by
  rw [containsSub.eq_def, h]
  simp

theorem marker_ne_nil (k : List Char) : marker k ≠ [] := by
  simp [marker]

theorem braceFree_head {c : Char} {s : List Char} (h : braceFree (c :: s) = true) :
    c ≠ '{' ∧ c ≠ '}' ∧ braceFree s = true := by
  simp only [braceFree, List.all_cons, Bool.and_eq_true, decide_eq_true_eq] at h ⊢
  exact ⟨h.1.1, h.1.2, h.2⟩

theorem marker_body_no_prefix :
    ∀ (k a : List Char), braceFree k = true → braceFree a = true → k ≠ a →
      ∀ z, (k ++ ['}', '}']).isPrefixOf (a ++ ('}' :: '}' :: z)) = false := by
  intro k
  induction k with
  | nil =>
      intro a hk ha hne z
      cases a with
      | nil => exact absurd rfl hne
      | cons c a2 =>
          obtain ⟨hc1, hc2, _⟩ := braceFree_head ha
          have hb : ('}' == c) = false := by
            rw [beq_eq_false_iff_ne]
            exact Ne.symm hc2
          simp [List.isPrefixOf, hb]
  | cons ck k2 ih =>
      intro a hk ha hne z
      obtain ⟨hck1, hck2, hk2⟩ := braceFree_head hk
      cases a with
      | nil =>
          have hb : (ck == '}') = false := by
            rw [beq_eq_false_iff_ne]
            exact hck2
          simp [List.isPrefixOf, hb]
      | cons ca a2 =>
          obtain ⟨hca1, hca2, ha2⟩ := braceFree_head ha
          by_cases hcc : ck = ca
          · subst hcc
            have hne2 : k2 ≠ a2 := by
              intro he
              exact hne (by rw [he])
            simp [List.isPrefixOf, ih a2 hk2 ha2 hne2 z]
          · have hb : (ck == ca) = false := by
              rw [beq_eq_false_iff_ne]
              exact hcc
            simp [List.isPrefixOf, hb]

theorem marker_no_match_inside (a k : List Char)
    (ha1 : braceFree a = true) (hk1 : braceFree k = true)
    (hk2 : k ≠ []) (hne : a ≠ k) :
    ∀ f1 f2, marker k = f1 ++ f2 → f2 ≠ [] →
      ∀ z, (marker a).isPrefixOf (f2 ++ z) = false := by
  intro f1 f2 hsplit hf2 z
  match f1, hsplit with
  | [], hsplit =>
      -- f2 is the whole marker: the two markers cannot be nested
      rw [List.nil_append] at hsplit
      subst hsplit
      -- the marker bodies cannot be prefixes of one another
      have hbody := marker_body_no_prefix a k ha1 hk1 hne z
      simp only [marker, List.cons_append, List.append_assoc, List.isPrefixOf,
        beq_self_eq_true, Bool.true_and]
      simpa using hbody
  | ['{'], hsplit =>
      -- f2 = '{' :: k ++ "}}": the second pattern char '{' cannot match
      have hf : '{' :: (k ++ ['}', '}']) = f2 := by
        simpa [marker] using hsplit
      subst hf
      cases k with
      | nil => exact absurd rfl hk2
      | cons kc k2 =>
          obtain ⟨hkc1, _, _⟩ := braceFree_head hk1
          have hb : ('{' == kc) = false := by
            rw [beq_eq_false_iff_ne]
            exact Ne.symm hkc1
          simp [marker, List.isPrefixOf, hb]
  | c :: d :: f1x, hsplit =>
      -- f2 is a nonempty suffix of k ++ "}}": its head is never '{'
      have hs2 : '{' = c ∧ '{' = d ∧ k ++ ['}', '}'] = f1x ++ f2 := by
        simpa [marker] using hsplit
      have hkeq := hs2.2.2
      cases f2 with
      | nil => exact absurd rfl hf2
      | cons h2 t2 =>
          have hmem : h2 ∈ k ++ ['}', '}'] := by
            rw [hkeq]
            exact List.mem_append_right f1x (by simp)
          have hne2 : h2 ≠ '{' := by
            rcases List.mem_append.mp hmem with hm | hm
            · have := (List.all_eq_true.mp hk1) h2 hm
              simp only [Bool.and_eq_true, decide_eq_true_eq] at this
              exact this.1
            · simp at hm
              rw [hm]
              decide
          have hb : ('{' == h2) = false := by
            rw [beq_eq_false_iff_ne]
            exact Ne.symm hne2
          simp [marker, List.isPrefixOf, hb]

theorem replaceAllAux_skip_front (pat rep : List Char) :
    ∀ (front rest : List Char) (fuel : Nat),
      (front ++ rest).length ≤ fuel →
      (∀ f1 f2, front = f1 ++ f2 → f2 ≠ [] → ∀ z, pat.isPrefixOf (f2 ++ z) = false) →
      replaceAllAux pat rep fuel (front ++ rest) =
        front ++ replaceAllAux pat rep (fuel - front.length) rest := by
  intro front
  induction front with
  | nil => intro rest fuel _ _; simp
  | cons c front2 ih =>
      intro rest fuel hlen hnm
      cases fuel with
      | zero => simp at hlen
      | succ fuel2 =>
          have hnp : pat.isPrefixOf (c :: front2 ++ rest) = false :=
            hnm [] (c :: front2) rfl (by simp) rest
          have hcond : (pat ≠ [] && pat.isPrefixOf (c :: (front2 ++ rest))) = false := by
            simp only [List.cons_append] at hnp
            simp [hnp]
          rw [List.cons_append, replaceAllAux, hcond]
          simp only [Bool.false_eq_true, if_false]
          rw [ih rest fuel2 (by simp at hlen ⊢; omega)
            (fun f1 f2 hs hf2 z => hnm (c :: f1) f2 (by rw [hs, List.cons_append]) hf2 z)]
          simp [List.length_cons, Nat.succ_sub_one]

theorem containsSub_strip_front (pat : List Char) :
    ∀ (front rest : List Char),
      (∀ f1 f2, front = f1 ++ f2 → f2 ≠ [] → ∀ z, pat.isPrefixOf (f2 ++ z) = false) →
      containsSub (front ++ rest) pat = containsSub rest pat := by
  intro front
  induction front with
  | nil => intro rest _; simp
  | cons c front2 ih =>
      intro rest hnm
      have hnp : pat.isPrefixOf (c :: front2 ++ rest) = false :=
        hnm [] (c :: front2) rfl (by simp) rest
      rw [List.cons_append, containsSub]
      simp only [List.cons_append] at hnp
      rw [hnp]
      simp only [Bool.false_eq_true, if_false]
      exact ih rest
        (fun f1 f2 hs hf2 z => hnm (c :: f1) f2 (by rw [hs, List.cons_append]) hf2 z)

theorem containsSub_marker_replaceAll (a k v : List Char)
    (ha1 : braceFree a = true) (ha2 : a ≠ []) (hk1 : braceFree k = true)
    (hk2 : k ≠ []) (hne : a ≠ k) :
    ∀ (fuel : Nat) (s : List Char), s.length ≤ fuel →
      containsSub s (marker k) = true →
      containsSub (replaceAllAux (marker a) v fuel s) (marker k) = true := by
  intro fuel
  induction fuel with
  | zero =>
      intro s hlen hc
      have hs : s = [] := List.length_eq_zero.mp (by omega)
      subst hs
      rw [containsSub_nil (marker k) (marker_ne_nil k)] at hc
      exact absurd hc (by simp)
  | succ fuel2 ih =>
      intro s hlen hc
      cases s with
      | nil =>
          rw [containsSub_nil (marker k) (marker_ne_nil k)] at hc
          exact absurd hc (by simp)
      | cons c cs =>
          by_cases hp : (marker k).isPrefixOf (c :: cs) = true
          · -- the k-marker sits at the front; the scan copies it verbatim
            obtain ⟨t, ht⟩ := List.isPrefixOf_iff_prefix.mp hp
            rw [show c :: cs = marker k ++ t from ht.symm]
            rw [replaceAllAux_skip_front (marker a) v (marker k) t (fuel2 + 1)
              (by rw [ht]; simpa using hlen)
              (marker_no_match_inside a k ha1 hk1 hk2 hne)]
            exact containsSub_of_isPrefixOf
              (List.isPrefixOf_iff_prefix.mpr (List.prefix_append _ _))
          · -- the k-marker occurs further right
            rw [containsSub] at hc
            rw [Bool.not_eq_true] at hp
            rw [hp] at hc
            simp only [Bool.false_eq_true, if_false] at hc
            by_cases hm : (marker a).isPrefixOf (c :: cs) = true
            · -- an a-marker is replaced here; the k-occurrence lies beyond it
              obtain ⟨t, ht⟩ := List.isPrefixOf_iff_prefix.mp hm
              have hstrip : containsSub (c :: cs) (marker k) = containsSub t (marker k) := by
                rw [show c :: cs = marker a ++ t from ht.symm]
                exact containsSub_strip_front (marker k) (marker a) t
                  (marker_no_match_inside k a hk1 ha1 ha2 (fun h => hne h.symm))
              have hct : containsSub t (marker k) = true := by
                rw [← hstrip, containsSub, hp]
                simpa using hc
              have hcond : ((marker a) ≠ [] && (marker a).isPrefixOf (c :: cs)) = true := by
                simp [marker_ne_nil a, hm]
              rw [replaceAllAux, hcond]
              simp only [if_true]
              have hdrop : (c :: cs).drop (marker a).length = t := by
                rw [show c :: cs = marker a ++ t from ht.symm]
                exact List.drop_left (marker a) t
              rw [hdrop]
              have hlt : t.length ≤ fuel2 := by
                have h1 : (marker a).length + t.length = (c :: cs).length := by
                  rw [show c :: cs = marker a ++ t from ht.symm]
                  simp
                have h2 : 1 ≤ (marker a).length := by
                  cases ha : marker a with
                  | nil => exact absurd ha (marker_ne_nil a)
                  | cons x xs => simp
                simp only [List.length_cons] at hlen h1
                omega
              exact containsSub_append_right (marker k)
                (replaceAllAux (marker a) v fuel2 t) (ih t hlt hct) v
            · -- no replacement here: the head character is copied
              rw [Bool.not_eq_true] at hm
              have hcond : ((marker a) ≠ [] && (marker a).isPrefixOf (c :: cs)) = false := by
                simp [hm]
              rw [replaceAllAux, hcond]
              simp only [Bool.false_eq_true, if_false]
              have hrec := ih cs (by simp at hlen; omega) hc
              rw [containsSub]
              split
              · rfl
              · exact hrec

theorem substitute_preserves_absent_marker (k : List Char)
    (hk1 : k ≠ []) (hk2 : braceFree k = true) :
    ∀ (params : List (List Char × List Char)) (command : List Char),
      (∀ kv ∈ params, kv.1 ≠ [] ∧ braceFree kv.1 = true) →
      (∀ kv ∈ params, kv.1 ≠ k) →
      containsSub command (marker k) = true →
      containsSub (substituteParameters command params) (marker k) = true := by
  intro params
  induction params with
  | nil => intro command _ _ hc; exact hc
  | cons kv rest ih =>
      intro command hkeys habs hc
      have hhead := hkeys kv (by simp)
      have hrepl : containsSub (replaceAll command (marker kv.1) kv.2) (marker k) = true := by
        rw [replaceAll]
        exact containsSub_marker_replaceAll kv.1 k kv.2 hhead.2 hhead.1 hk2 hk1
          (habs kv (by simp)) command.length command (le_refl _) hc
      simp only [substituteParameters, List.foldl_cons]
      exact ih (replaceAll command (marker kv.1) kv.2)
        (fun kv2 hm => hkeys kv2 (by simp [hm]))
        (fun kv2 hm => habs kv2 (by simp [hm])) hrepl

/-! ## Claim theorems -/

/-- C8 counterexample: a parameter name containing brace characters can
overlap an absent-key placeholder and destroy it — with the single map
entry `other\x7d\x7dx ↦ v`, a single application turns the template
`\x7b\x7bother\x7d\x7dx\x7d\x7d` into `v`, erasing the `\x7b\x7bother\x7d\x7d`
placeholder although the key `other` is absent from the map.  So
"placeholders whose key is absent from the map are left intact" fails as
stated for arbitrary maps. -/
theorem C8_overlapping_key_destroys_placeholder :
    substituteParameters "\x7b\x7bother\x7d\x7dx\x7d\x7d".toList
        [("other\x7d\x7dx".toList, "v".toList)] = "v".toList ∧
    containsSub "\x7b\x7bother\x7d\x7dx\x7d\x7d".toList (marker "other".toList) = true ∧
    containsSub "v".toList (marker "other".toList) = false ∧
    "other".toList ≠ "other\x7d\x7dx".toList := by
  refine ⟨by decide, by decide, by decide, by decide⟩

/-- C8 (amended): `substituteParameters` is idempotent once its result
carries no remaining `\x7b\x7bk\x7d\x7d` marker for any key `k` of the map
(first conjunct); and a placeholder whose key is absent from the map
survives a single application — also in mixed templates where other
placeholders are substituted — provided the map's keys and the absent key
are nonempty and brace-free, so that no map marker can overlap the
placeholder (second conjunct; the counterexample shows the proviso cannot
be dropped). -/
theorem C8_substitute_laws (command : List Char)
    (params : List (List Char × List Char)) :
    ((∀ kv ∈ params,
        containsSub (substituteParameters command params) (marker kv.1) = false) →
      substituteParameters (substituteParameters command params) params =
        substituteParameters command params) ∧
    (∀ k : List Char, k ≠ [] → braceFree k = true →
      (∀ kv ∈ params, kv.1 ≠ [] ∧ braceFree kv.1 = true) →
      (∀ kv ∈ params, kv.1 ≠ k) →
      containsSub command (marker k) = true →
      containsSub (substituteParameters command params) (marker k) = true) :=
  ⟨fun h => subst_eq_self_of_no_markers params (substituteParameters command params) h,
   fun k hk1 hk2 hkeys habs hc =>
     substitute_preserves_absent_marker k hk1 hk2 params command hkeys habs hc⟩

/-- C8 witness: a concrete double application equals the single one, and in
the mixed template `echo \x7b\x7bmsg\x7d\x7d \x7b\x7bother\x7d\x7d` with only
`msg` in the map, the `\x7b\x7bother\x7d\x7d` placeholder survives the
application that substitutes `msg`. -/
theorem C8_substitute_laws_witness :
    substituteParameters
        (substituteParameters "echo \x7b\x7bmsg\x7d\x7d and \x7b\x7bother\x7d\x7d".toList
          [("msg".toList, "hi".toList)])
        [("msg".toList, "hi".toList)] =
      substituteParameters "echo \x7b\x7bmsg\x7d\x7d and \x7b\x7bother\x7d\x7d".toList
        [("msg".toList, "hi".toList)] ∧
    containsSub
      (substituteParameters "echo \x7b\x7bmsg\x7d\x7d \x7b\x7bother\x7d\x7d".toList
        [("msg".toList, "hi".toList)])
      (marker "other".toList) = true :=
  ⟨(C8_substitute_laws "echo \x7b\x7bmsg\x7d\x7d and \x7b\x7bother\x7d\x7d".toList
      [("msg".toList, "hi".toList)]).1 (by decide),
   (C8_substitute_laws "echo \x7b\x7bmsg\x7d\x7d \x7b\x7bother\x7d\x7d".toList
      [("msg".toList, "hi".toList)]).2 "other".toList (by decide) (by decide)
      (by decide) (by decide) (by decide)⟩

/-- C5 counterexample: `-1` and `1e20` are both integer-valued numbers
(denominator 1), yet the int validator rejects them — the first because
the decimal form fails the `^[0-9]+$` check, the second because the
`int64(v)` conversion overflows so `v != float64(int64(v))` fires — so
the claim's "accepts JSON integers and integer-valued floating-point
numbers" fails as stated. -/
theorem C5_integer_valued_rejected :
    (exceptIsError (validateParameterValue ['n'] "int".toList (.num (-1))) = true ∧
      ((-1 : ℚ).den = 1)) ∧
    (exceptIsError (validateParameterValue ['n'] "int".toList (.num q1e20)) = true ∧
      q1e20.den = 1 ∧ 0 ≤ q1e20.num) := by
  refine ⟨⟨by rfl, by decide⟩, ⟨by rfl, by decide, by decide⟩⟩

/-- C5 (amended): for int parameters the validator accepts exactly the
nonnegative integer-valued numbers below 2^63 (producing the decimal
form) and the strings matching `^[0-9]+$` (returned verbatim); it rejects
numbers with a fractional part, integer-valued numbers at or beyond 2^63
(the int64 conversion overflows), negative values (the decimal form fails
the digit check), non-matching strings, and the unsupported kinds boolean,
array and object.  `0`, `0.0` and `"0"` all normalize to `"0"` (in the
model `0` and `0.0` are the same rational). -/
theorem C5_int_param_validation (name : List Char) :
    (∀ q : ℚ, q.den = 1 → 0 ≤ q.num → q.num < int64Bound →
      validateParameterValue name "int".toList (.num q) = .ok (intDecChars q.num)) ∧
    (∀ q : ℚ, q.den ≠ 1 →
      exceptIsError (validateParameterValue name "int".toList (.num q)) = true) ∧
    (∀ q : ℚ, q.den = 1 → int64Bound ≤ q.num →
      exceptIsError (validateParameterValue name "int".toList (.num q)) = true) ∧
    (∀ q : ℚ, q.den = 1 → q.num < 0 →
      exceptIsError (validateParameterValue name "int".toList (.num q)) = true) ∧
    (∀ s : List Char, intRegexMatch s = true →
      validateParameterValue name "int".toList (.str s) = .ok s) ∧
    (∀ s : List Char, intRegexMatch s = false →
      exceptIsError (validateParameterValue name "int".toList (.str s)) = true) ∧
    (∀ b, exceptIsError (validateParameterValue name "int".toList (.boolv b)) = true) ∧
    (∀ xs, exceptIsError (validateParameterValue name "int".toList (.arr xs)) = true) ∧
    (∀ fs, exceptIsError (validateParameterValue name "int".toList (.obj fs)) = true) ∧
    validateParameterValue name "int".toList (.str ['0']) = .ok ['0'] ∧
    validateParameterValue name "int".toList (.num 0) = .ok ['0'] := by
  have hpos : (0 : Int) < int64Bound := by decide
  refine ⟨?_, ?_, ?_, ?_, ?_, ?_, ?_, ?_, ?_, ?_, ?_⟩
  · intro q hden hnum hlt
    have hnotneg : ¬ q.num < 0 := by omega
    have hnb : ¬ q.num < -int64Bound := by omega
    have hub : ¬ int64Bound ≤ q.num := by omega
    have hmatch : intRegexMatch (intDecChars q.num) = true := by
      simp only [intDecChars, if_neg hnotneg]
      exact intRegexMatch_natDecChars q.num.natAbs
    simp [validateParameterValue, hden, hnb, hub, hmatch]
  · intro q hden
    simp [validateParameterValue, hden, exceptIsError]
  · intro q hden hof
    simp [validateParameterValue, hden, hof, exceptIsError]
  · intro q hden hneg
    have hdash : isDigitCh '-' = false := by decide
    by_cases hb : q.num < -int64Bound
    · simp [validateParameterValue, hden, hb, exceptIsError]
    · have hub : ¬ int64Bound ≤ q.num := by omega
      have hfail : intRegexMatch (intDecChars q.num) = false := by
        rw [intDecChars, if_pos hneg]
        simp [intRegexMatch, List.all_cons, hdash]
      simp [validateParameterValue, hden, hb, hub, hfail, exceptIsError]
  · intro s hs
    simp [validateParameterValue, hs]
  · intro s hs
    simp [validateParameterValue, hs, exceptIsError]
  · intro b; rfl
  · intro xs; rfl
  · intro fs; rfl
  · rfl
  · rfl

/-- C5 witness: each part of the amended statement at a concrete input,
including the accepted `5`, the fractional `1/2`, the overflowing `1e20`,
and the negative `-3`. -/
theorem C5_int_param_validation_witness :
    validateParameterValue ['n'] "int".toList (.num 5) = .ok (intDecChars (5 : ℚ).num) ∧
    exceptIsError (validateParameterValue ['n'] "int".toList (.num halfQ)) = true ∧
    exceptIsError (validateParameterValue ['n'] "int".toList (.num q1e20)) = true ∧
    exceptIsError (validateParameterValue ['n'] "int".toList (.num (-3))) = true ∧
    validateParameterValue ['n'] "int".toList (.str "007".toList) = .ok "007".toList ∧
    exceptIsError (validateParameterValue ['n'] "int".toList (.str "0x1".toList)) = true ∧
    exceptIsError (validateParameterValue ['n'] "int".toList (.boolv true)) = true := by
  have h := C5_int_param_validation ['n']
  exact ⟨h.1 5 (by decide) (by decide) (by decide),
    h.2.1 halfQ (by decide),
    h.2.2.1 q1e20 (by decide) (by decide),
    h.2.2.2.1 (-3) (by decide) (by decide),
    h.2.2.2.2.1 "007".toList (by decide),
    h.2.2.2.2.2.1 "0x1".toList (by decide),
    h.2.2.2.2.2.2.1 true⟩

/-- C2 counterexample: a token whose claims carry no `exp` at all is
accepted by the API-audience validation (the code only rejects a present
and expired `exp`), contradicting "no token without an expiry ever yields
claims". -/
theorem C2_token_without_expiry_accepted :
    validateJWTClaims {} 1000 (some []) = .ok {} ∧
    ({} : Claims).expiresAt = none := by
  constructor
  · rfl
  · rfl

/-- C2 (amended): a present `exp` that is not in the future is rejected as
expired, for every audience policy; an absent `exp` never produces the
expired error (the expiry check simply does not apply). -/
theorem C2_expiry_validation (claims : Claims) (now : Int)
    (ea : Option (List Char)) :
    (∀ e, claims.expiresAt = some e → e ≤ now →
      validateJWTClaims claims now ea = .error .expired) ∧
    (claims.expiresAt = none →
      validateJWTClaims claims now ea ≠ .error .expired) := by
  constructor
  · intro e he hle
    simp [validateJWTClaims, he, hle]
  · intro hnone
    simp only [validateJWTClaims, hnone]
    cases ea with
    | none => simp [validateJWTClaims.validateAudience]
    | some expected =>
        by_cases hexp : expected = []
        · subst hexp
          cases haud : claims.audience with
          | nil => simp [validateJWTClaims.validateAudience, haud]
          | cons a0 rest =>
              by_cases h0 : a0 = []
              · simp [validateJWTClaims.validateAudience, haud, h0]
              · simp [validateJWTClaims.validateAudience, haud, h0]
        · cases haud : claims.audience with
          | nil => simp [validateJWTClaims.validateAudience, haud, hexp]
          | cons a0 rest =>
              by_cases h0 : a0 = expected
              · simp [validateJWTClaims.validateAudience, haud, h0, hexp]
              · simp [validateJWTClaims.validateAudience, haud, h0, hexp]

/-- C2 witness: a concrete expired token is rejected, and a concrete token
without expiry does not trigger the expired error. -/
theorem C2_expiry_validation_witness :
    validateJWTClaims { expiresAt := some 5 } 10 (some []) = .error .expired ∧
    validateJWTClaims {} 10 (some []) ≠ .error .expired :=
  ⟨(C2_expiry_validation { expiresAt := some 5 } 10 (some [])).1 5 rfl (by decide),
   (C2_expiry_validation {} 10 (some [])).2 rfl⟩

/-- C4 counterexample: an audience list that contains `viewer` in its
second entry is rejected by the viewer policy — the code inspects only the
first entry — so "accepts exactly the claims whose audience list contains
viewer" fails as stated. -/
theorem C4_second_audience_entry_ignored :
    validateJWTClaims
        { expiresAt := some 100, audience := ["other".toList, "viewer".toList] }
        0 (some "viewer".toList)
      = .error (.audienceMismatch "viewer".toList) ∧
    "viewer".toList ∈ ["other".toList, "viewer".toList] := by
  constructor
  · rfl
  · simp

/-- C4 (amended): on an unexpired token the API policy (`expected = ""`)
accepts exactly an empty audience list or one whose first entry is the
empty string, and the viewer policy accepts exactly a list whose first
entry is `"viewer"`; every other combination yields the audience-mismatch
error.  Only the first list entry is ever consulted. -/
theorem C4_audience_first_entry (claims : Claims) (now : Int)
    (hexp : ∀ e, claims.expiresAt = some e → now < e) :
    (claims.audience = [] →
      validateJWTClaims claims now (some []) = .ok claims ∧
      validateJWTClaims claims now (some "viewer".toList) =
        .error (.audienceMismatch "viewer".toList)) ∧
    (∀ a0 rest, claims.audience = a0 :: rest →
      (validateJWTClaims claims now (some []) =
        if a0 = [] then .ok claims else .error (.audienceMismatch [])) ∧
      (validateJWTClaims claims now (some "viewer".toList) =
        if a0 = "viewer".toList then .ok claims
        else .error (.audienceMismatch "viewer".toList))) := by
  have hstep : ∀ ea, validateJWTClaims claims now ea =
      validateJWTClaims.validateAudience claims ea := by
    intro ea
    cases he : claims.expiresAt with
    | none => simp [validateJWTClaims, he]
    | some e =>
        have hlt := hexp e he
        have hnotle : ¬ e ≤ now := by omega
        simp [validateJWTClaims, he, hnotle]
  constructor
  · intro haud
    rw [hstep, hstep]
    constructor
    · simp [validateJWTClaims.validateAudience, haud]
    · simp [validateJWTClaims.validateAudience, haud]
  · intro a0 rest haud
    rw [hstep, hstep]
    constructor
    · by_cases h0 : a0 = []
      · simp [validateJWTClaims.validateAudience, haud, h0]
      · simp [validateJWTClaims.validateAudience, haud, h0]
    · by_cases h0 : a0 = "viewer".toList
      · simp [validateJWTClaims.validateAudience, haud, h0]
      · simp [validateJWTClaims.validateAudience, haud, h0]

/-- C4 witness: concrete accept/reject outcomes for both audience policies. -/
theorem C4_audience_first_entry_witness :
    validateJWTClaims { expiresAt := some 100, audience := ["viewer".toList] } 0
        (some "viewer".toList) =
      .ok { expiresAt := some 100, audience := ["viewer".toList] } ∧
    validateJWTClaims { expiresAt := some 100 } 0 (some []) =
      .ok { expiresAt := some 100 } := by
  constructor
  · have h := (C4_audience_first_entry
      { expiresAt := some 100, audience := ["viewer".toList] } 0
      (by intro e he; cases he; decide)).2 "viewer".toList [] rfl
    simpa using h.2
  · have h := (C4_audience_first_entry { expiresAt := some 100 } 0
      (by intro e he; cases he; decide)).1 rfl
    exact h.1

/-- C1: any submission that passes the body-hash gate (the endpoint did not
answer 401) has `body_sha1 = SHA1(canonical(body))`; and any two bodies
that decode to the same JSON content up to object key order — whitespace
is discarded by decoding — canonicalize to the same bytes and hence the
same digest. -/
theorem C1_body_hash_binding :
    (∀ (taskDir : List Char) (tasks : List TaskConfig)
       (running : List (List Char × RunningTask)) (w : World)
       (claims : Claims) (body nb : List Char),
      normalizeJSON body = some nb →
      (handleStartTaskAfterAuth taskDir tasks running w claims body).1.status ≠ 401 →
      claims.bodySHA1 = computeSHA1Hex nb) ∧
    (∀ s1 s2 : List Char, (jsonUnmarshal s1).isSome = true →
      (jsonUnmarshal s1).map deepSort = (jsonUnmarshal s2).map deepSort →
      normalizeJSON s1 = normalizeJSON s2 ∧
      (normalizeJSON s1).map computeSHA1Hex = (normalizeJSON s2).map computeSHA1Hex) := by
  constructor
  · intro taskDir tasks running w claims body nb hnb h401
    by_cases hc : claims.bodySHA1 = computeSHA1Hex nb
    · exact hc
    · exfalso
      apply h401
      simp only [handleStartTaskAfterAuth, hnb]
      rw [if_pos (Or.inr hc)]
  · intro s1 s2 hs hmap
    cases h1 : jsonUnmarshal s1 with
    | none => rw [h1] at hs; simp at hs
    | some v1 =>
        cases h2 : jsonUnmarshal s2 with
        | none => rw [h1, h2] at hmap; simp at hmap
        | some v2 =>
            rw [h1, h2] at hmap
            simp at hmap
            constructor
            · simp [normalizeJSON, h1, h2, goMarshal, hmap]
            · simp [normalizeJSON, h1, h2, goMarshal, hmap]

/-- C1 witness: the fixture token is exactly the digest of the canonical
body (the endpoint returns 200 on the whitespace-laden `c1Body`), and the
two key-permuted, differently-spaced payloads canonicalize identically. -/
theorem C1_body_hash_binding_witness :
    c1Claims.bodySHA1 = computeSHA1Hex c1CanonicalBody ∧
    normalizeJSON c1KeyOrderA = normalizeJSON c1KeyOrderB := by
  constructor
  · exact C1_body_hash_binding.1 "/var/lib/tasks".toList echoTasks [] c1World c1Claims
      c1Body c1CanonicalBody (by decide) (by decide)
  · exact (C1_body_hash_binding.2 c1KeyOrderA c1KeyOrderB rfl rfl).1

/-- C3: submitting `\x7b"task_name":"p"\x7d` for a task whose required string
parameter `msg` is missing makes the endpoint answer status 500 (not the
documented 400) with an error string containing
`required parameter \x27msg\x27`: the handler maps every `StartTask`
failure, validation included, to `http.StatusInternalServerError`. -/
theorem C3_missing_required_param_is_500 :
    (handleStartTaskAfterAuth "/var/lib/tasks".toList paramTasks [] c3World
        c3Claims c3Body).1.status = 500 ∧
    containsSub (handleStartTaskAfterAuth "/var/lib/tasks".toList paramTasks [] c3World
        c3Claims c3Body).1.body "required parameter \x27msg\x27".toList = true ∧
    (handleStartTaskAfterAuth "/var/lib/tasks".toList paramTasks [] c3World
        c3Claims c3Body).1.status ≠ 400 := by
  refine ⟨by decide, by decide, by decide⟩

/-- C6 (modelled from the spec; the Timeout Engine exists in the repository
only through its tests): the deadline firing while Running sets
`terminated`, emits a timeout message with the PID and delivers TERM (15);
the grace window ending with the process alive sets `killed`, emits the
second timeout message and delivers KILL (9); and over any event sequence
`killed` is never set without `terminated` having been set. -/
theorem C6_timeout_engine_transitions :
    (∀ (pid : Nat) (s : EngineState), s.phase = .running →
      engineStep pid s (.deadline true) =
        { s with phase := .terminated, terminated := true, timeoutMsgs := s.timeoutMsgs ++ [pid], signals := s.signals ++ [15] }) ∧
    (∀ (pid : Nat) (s : EngineState), s.phase = .terminated →
      engineStep pid s (.graceOver true) =
        { s with phase := .killed, killed := true, timeoutMsgs := s.timeoutMsgs ++ [pid], signals := s.signals ++ [9] }) ∧
    (∀ (pid : Nat) (evs : List EngineEvent),
      (engineRun pid evs).killed = true → (engineRun pid evs).terminated = true) := by
  refine ⟨?_, ?_, ?_⟩
  · intro pid s h
    simp [engineStep, h]
  · intro pid s h
    simp [engineStep, h]
  · intro pid evs hk
    exact (engineRun_inv pid evs).1 hk

/-- C6 witness: the two transitions at concrete states, and a concrete run
ending Killed that indeed passed through Terminated. -/
theorem C6_timeout_engine_transitions_witness :
    engineStep 42 {} (.deadline true) =
      { phase := .terminated, terminated := true, timeoutMsgs := [42], signals := [15] } ∧
    engineStep 42 { phase := .terminated, terminated := true } (.graceOver true) =
      { phase := .killed, terminated := true, killed := true, timeoutMsgs := [42], signals := [9] } ∧
    (engineRun 7 [.tick true, .deadline true, .graceOver true]).terminated = true := by
  refine ⟨?_, ?_, ?_⟩
  · exact C6_timeout_engine_transitions.1 42 {} rfl
  · exact C6_timeout_engine_transitions.2.1 42 { phase := .terminated, terminated := true } rfl
  · exact C6_timeout_engine_transitions.2.2 7 [.tick true, .deadline true, .graceOver true]
      (by decide)

/-! ## C7, C9, C10 -/

/-- C7 counterexample: `uuid.Parse` also accepts the `urn:uuid:` form, so
`validateTaskID` returns true on a 45-character string that is neither the
36-character hyphenated nor the 32-character unhyphenated canonical form,
refuting the "exactly" in the claim.  (The inherited 38-character case is
looser still: the supposed braces are never checked.) -/
theorem C7_urn_form_accepted :
    validateTaskID "urn:uuid:550e8400-e29b-41d4-a716-446655440000".toList = true ∧
    ("urn:uuid:550e8400-e29b-41d4-a716-446655440000".toList).length = 45 ∧
    validateTaskID "X550e8400-e29b-41d4-a716-446655440000Y".toList = true := by
  refine ⟨by decide, by decide, by decide⟩

set_option maxHeartbeats 4000000 in
/-- C7 (amended): rendering any sixteen bytes with the Supervisor's
`uuid.New().String()` format and re-parsing is the identity and validates,
and `validateTaskID` only ever accepts the four length shapes of
`uuid.Parse`: 36 (hyphenated), 45 (`urn:uuid:` prefix), 38 (brace-style,
outer characters unchecked) and 32 (bare hex). -/
theorem C7_uuid_roundtrip_and_forms :
    (∀ b0 b1 b2 b3 b4 b5 b6 b7 b8 b9 b10 b11 b12 b13 b14 b15 : Nat,
      b0 < 256 → b1 < 256 → b2 < 256 → b3 < 256 → b4 < 256 → b5 < 256 →
      b6 < 256 → b7 < 256 → b8 < 256 → b9 < 256 → b10 < 256 → b11 < 256 →
      b12 < 256 → b13 < 256 → b14 < 256 → b15 < 256 →
      uuidParse (uuidToString [b0, b1, b2, b3, b4, b5, b6, b7,
          b8, b9, b10, b11, b12, b13, b14, b15]) =
        some [b0, b1, b2, b3, b4, b5, b6, b7, b8, b9, b10, b11, b12, b13, b14, b15] ∧
      validateTaskID (uuidToString [b0, b1, b2, b3, b4, b5, b6, b7,
          b8, b9, b10, b11, b12, b13, b14, b15]) = true) ∧
    (∀ s : List Char, validateTaskID s = true →
      s.length = 36 ∨ s.length = 45 ∨ s.length = 38 ∨ s.length = 32) := by
  constructor
  · intro b0 b1 b2 b3 b4 b5 b6 b7 b8 b9 b10 b11 b12 b13 b14 b15
    intro h0 h1 h2 h3 h4 h5 h6 h7 h8 h9 h10 h11 h12 h13 h14 h15
    have hx : ∀ b : Nat, b < 256 →
        xtob (hexCh (b / 16 % 16)) (hexCh (b % 16)) = some b := by decide
    have e0 : xtob ((uuidToString [b0, b1, b2, b3, b4, b5, b6, b7, b8, b9, b10, b11, b12, b13, b14, b15])[0]?.getD 'x')
        ((uuidToString [b0, b1, b2, b3, b4, b5, b6, b7, b8, b9, b10, b11, b12, b13, b14, b15])[1]?.getD 'x') = some b0 := hx b0 h0
    have e1 : xtob ((uuidToString [b0, b1, b2, b3, b4, b5, b6, b7, b8, b9, b10, b11, b12, b13, b14, b15])[2]?.getD 'x')
        ((uuidToString [b0, b1, b2, b3, b4, b5, b6, b7, b8, b9, b10, b11, b12, b13, b14, b15])[3]?.getD 'x') = some b1 := hx b1 h1
    have e2 : xtob ((uuidToString [b0, b1, b2, b3, b4, b5, b6, b7, b8, b9, b10, b11, b12, b13, b14, b15])[4]?.getD 'x')
        ((uuidToString [b0, b1, b2, b3, b4, b5, b6, b7, b8, b9, b10, b11, b12, b13, b14, b15])[5]?.getD 'x') = some b2 := hx b2 h2
    have e3 : xtob ((uuidToString [b0, b1, b2, b3, b4, b5, b6, b7, b8, b9, b10, b11, b12, b13, b14, b15])[6]?.getD 'x')
        ((uuidToString [b0, b1, b2, b3, b4, b5, b6, b7, b8, b9, b10, b11, b12, b13, b14, b15])[7]?.getD 'x') = some b3 := hx b3 h3
    have e4 : xtob ((uuidToString [b0, b1, b2, b3, b4, b5, b6, b7, b8, b9, b10, b11, b12, b13, b14, b15])[9]?.getD 'x')
        ((uuidToString [b0, b1, b2, b3, b4, b5, b6, b7, b8, b9, b10, b11, b12, b13, b14, b15])[10]?.getD 'x') = some b4 := hx b4 h4
    have e5 : xtob ((uuidToString [b0, b1, b2, b3, b4, b5, b6, b7, b8, b9, b10, b11, b12, b13, b14, b15])[11]?.getD 'x')
        ((uuidToString [b0, b1, b2, b3, b4, b5, b6, b7, b8, b9, b10, b11, b12, b13, b14, b15])[12]?.getD 'x') = some b5 := hx b5 h5
    have e6 : xtob ((uuidToString [b0, b1, b2, b3, b4, b5, b6, b7, b8, b9, b10, b11, b12, b13, b14, b15])[14]?.getD 'x')
        ((uuidToString [b0, b1, b2, b3, b4, b5, b6, b7, b8, b9, b10, b11, b12, b13, b14, b15])[15]?.getD 'x') = some b6 := hx b6 h6
    have e7 : xtob ((uuidToString [b0, b1, b2, b3, b4, b5, b6, b7, b8, b9, b10, b11, b12, b13, b14, b15])[16]?.getD 'x')
        ((uuidToString [b0, b1, b2, b3, b4, b5, b6, b7, b8, b9, b10, b11, b12, b13, b14, b15])[17]?.getD 'x') = some b7 := hx b7 h7
    have e8 : xtob ((uuidToString [b0, b1, b2, b3, b4, b5, b6, b7, b8, b9, b10, b11, b12, b13, b14, b15])[19]?.getD 'x')
        ((uuidToString [b0, b1, b2, b3, b4, b5, b6, b7, b8, b9, b10, b11, b12, b13, b14, b15])[20]?.getD 'x') = some b8 := hx b8 h8
    have e9 : xtob ((uuidToString [b0, b1, b2, b3, b4, b5, b6, b7, b8, b9, b10, b11, b12, b13, b14, b15])[21]?.getD 'x')
        ((uuidToString [b0, b1, b2, b3, b4, b5, b6, b7, b8, b9, b10, b11, b12, b13, b14, b15])[22]?.getD 'x') = some b9 := hx b9 h9
    have e10 : xtob ((uuidToString [b0, b1, b2, b3, b4, b5, b6, b7, b8, b9, b10, b11, b12, b13, b14, b15])[24]?.getD 'x')
        ((uuidToString [b0, b1, b2, b3, b4, b5, b6, b7, b8, b9, b10, b11, b12, b13, b14, b15])[25]?.getD 'x') = some b10 := hx b10 h10
    have e11 : xtob ((uuidToString [b0, b1, b2, b3, b4, b5, b6, b7, b8, b9, b10, b11, b12, b13, b14, b15])[26]?.getD 'x')
        ((uuidToString [b0, b1, b2, b3, b4, b5, b6, b7, b8, b9, b10, b11, b12, b13, b14, b15])[27]?.getD 'x') = some b11 := hx b11 h11
    have e12 : xtob ((uuidToString [b0, b1, b2, b3, b4, b5, b6, b7, b8, b9, b10, b11, b12, b13, b14, b15])[28]?.getD 'x')
        ((uuidToString [b0, b1, b2, b3, b4, b5, b6, b7, b8, b9, b10, b11, b12, b13, b14, b15])[29]?.getD 'x') = some b12 := hx b12 h12
    have e13 : xtob ((uuidToString [b0, b1, b2, b3, b4, b5, b6, b7, b8, b9, b10, b11, b12, b13, b14, b15])[30]?.getD 'x')
        ((uuidToString [b0, b1, b2, b3, b4, b5, b6, b7, b8, b9, b10, b11, b12, b13, b14, b15])[31]?.getD 'x') = some b13 := hx b13 h13
    have e14 : xtob ((uuidToString [b0, b1, b2, b3, b4, b5, b6, b7, b8, b9, b10, b11, b12, b13, b14, b15])[32]?.getD 'x')
        ((uuidToString [b0, b1, b2, b3, b4, b5, b6, b7, b8, b9, b10, b11, b12, b13, b14, b15])[33]?.getD 'x') = some b14 := hx b14 h14
    have e15 : xtob ((uuidToString [b0, b1, b2, b3, b4, b5, b6, b7, b8, b9, b10, b11, b12, b13, b14, b15])[34]?.getD 'x')
        ((uuidToString [b0, b1, b2, b3, b4, b5, b6, b7, b8, b9, b10, b11, b12, b13, b14, b15])[35]?.getD 'x') = some b15 := hx b15 h15
    have hparse : uuidParse (uuidToString [b0, b1, b2, b3, b4, b5, b6, b7, b8, b9, b10, b11, b12, b13, b14, b15]) = some [b0, b1, b2, b3, b4, b5, b6, b7, b8, b9, b10, b11, b12, b13, b14, b15] := by
      show xtobList (uuidToString [b0, b1, b2, b3, b4, b5, b6, b7, b8, b9, b10, b11, b12, b13, b14, b15]) uuidHexPositions = some [b0, b1, b2, b3, b4, b5, b6, b7, b8, b9, b10, b11, b12, b13, b14, b15]
      simp [uuidHexPositions, xtobList, e0, e1, e2, e3, e4, e5, e6, e7, e8, e9, e10, e11, e12, e13, e14, e15]
    refine ⟨hparse, ?_⟩
    rw [validateTaskID, hparse]
    rfl
  · intro s h
    by_cases h36 : s.length = 36
    · exact Or.inl h36
    by_cases h45 : s.length = 45
    · exact Or.inr (Or.inl h45)
    by_cases h38 : s.length = 38
    · exact Or.inr (Or.inr (Or.inl h38))
    by_cases h32 : s.length = 32
    · exact Or.inr (Or.inr (Or.inr h32))
    exfalso
    simp [validateTaskID, uuidParse, h36, h45, h38, h32] at h

/-- C7 witness: a concrete render/parse round trip, and the length shape of
a concrete accepted identifier. -/
theorem C7_uuid_roundtrip_and_forms_witness :
    uuidParse (uuidToString [0, 17, 34, 51, 68, 85, 102, 119,
        136, 153, 170, 187, 204, 221, 238, 255]) =
      some [0, 17, 34, 51, 68, 85, 102, 119, 136, 153, 170, 187, 204, 221, 238, 255] ∧
    ("550e8400e29b41d4a716446655440000".toList.length = 36 ∨
     "550e8400e29b41d4a716446655440000".toList.length = 45 ∨
     "550e8400e29b41d4a716446655440000".toList.length = 38 ∨
     "550e8400e29b41d4a716446655440000".toList.length = 32) := by
  constructor
  · exact (C7_uuid_roundtrip_and_forms.1 0 17 34 51 68 85 102 119
      136 153 170 187 204 221 238 255
      (by decide) (by decide) (by decide) (by decide) (by decide) (by decide)
      (by decide) (by decide) (by decide) (by decide) (by decide) (by decide)
      (by decide) (by decide) (by decide) (by decide)).1
  · exact C7_uuid_roundtrip_and_forms.2 "550e8400e29b41d4a716446655440000".toList
      (by decide)

theorem waitPhase_notFound (env : TailEnv) :
    ∀ (fuel i ctr : Nat), (∀ j, j < 60 → env.statOk j = false) →
      (∀ n, env.cancel n = false) → i + fuel ≤ 60 →
      waitPhase env fuel i ctr = (.notFound, ctr + fuel) := by
  intro fuel
  induction fuel with
  | zero => intro i ctr _ _ _; simp [waitPhase]
  | succ fuel ih =>
      intro i ctr hstat hcancel hle
      have h1 : env.cancel ctr = false := hcancel ctr
      have h2 : env.statOk i = false := hstat i (by omega)
      simp only [waitPhase, h1, h2, Bool.false_eq_true, if_false]
      rw [ih (i + 1) (ctr + 1) hstat hcancel (by omega)]
      congr 1
      omega

theorem waitPhase_found (env : TailEnv) :
    ∀ (fuel i ctr : Nat), (∀ n, env.cancel n = false) →
      (∃ j, i ≤ j ∧ j < i + fuel ∧ env.statOk j = true) →
      (waitPhase env fuel i ctr).1 = .found := by
  intro fuel
  induction fuel with
  | zero =>
      intro i ctr _ hj
      obtain ⟨j, hj1, hj2, _⟩ := hj
      omega
  | succ fuel ih =>
      intro i ctr hcancel hj
      have h1 : env.cancel ctr = false := hcancel ctr
      by_cases hi : env.statOk i = true
      · simp [waitPhase, h1, hi]
      · obtain ⟨j, hj1, hj2, hj3⟩ := hj
        have hne : j ≠ i := fun he => hi (he ▸ hj3)
        simp only [waitPhase, h1, Bool.false_eq_true, if_false, hi]
        exact ih (i + 1) (ctr + 1) hcancel ⟨j, by omega, by omega, hj3⟩

theorem emitLines_mem (env : TailEnv) :
    ∀ (lines : List (List Char)) (ctr : Nat) (m : TailMsg),
      m ∈ (emitLines env lines ctr).1 →
      ∃ l ∈ lines, m = ⟨env.label, l ++ ['\n']⟩ := by
  intro lines
  induction lines with
  | nil => intro ctr m hm; simp [emitLines] at hm
  | cons l rest ih =>
      intro ctr m hm
      by_cases hc : env.cancel ctr = true
      · simp [emitLines, hc] at hm
      · simp only [emitLines, hc, Bool.false_eq_true, if_false] at hm
        rcases List.mem_cons.mp hm with he | ht
        · exact ⟨l, by simp, he⟩
        · obtain ⟨l2, hl2, he2⟩ := ih (ctr + 1) m ht
          exact ⟨l2, by simp [hl2], he2⟩

theorem followPhase_mem (env : TailEnv) :
    ∀ (ticks : List (List (List Char))) (ctr : Nat) (m : TailMsg),
      m ∈ followPhase env ticks ctr →
      ∃ t ∈ ticks, ∃ l ∈ t, m = ⟨env.label, l ++ ['\n']⟩ := by
  intro ticks
  induction ticks with
  | nil => intro ctr m hm; simp [followPhase] at hm
  | cons tick rest ih =>
      intro ctr m hm
      by_cases hc : env.cancel ctr = true
      · simp [followPhase, hc] at hm
      · simp only [followPhase, hc, Bool.false_eq_true, if_false] at hm
        rcases hab : (emitLines env tick (ctr + 1)) with ⟨ms, ctr2, ab⟩
        rw [hab] at hm
        simp only at hm
        cases ab with
        | true =>
            simp only [if_true] at hm
            have := emitLines_mem env tick (ctr + 1) m (by rw [hab]; exact hm)
            obtain ⟨l, hl, he⟩ := this
            exact ⟨tick, by simp, l, hl, he⟩
        | false =>
            simp only [Bool.false_eq_true, if_false] at hm
            rcases List.mem_append.mp hm with h1 | h2
            · have := emitLines_mem env tick (ctr + 1) m (by rw [hab]; exact h1)
              obtain ⟨l, hl, he⟩ := this
              exact ⟨tick, by simp, l, hl, he⟩
            · obtain ⟨t, ht, l, hl, he⟩ := ih ctr2 m h2
              exact ⟨t, by simp [ht], l, hl, he⟩

/-- C9: if the file never exists during the sixty per-second probes and no
cancellation occurs, the tailer emits exactly the single waiting record and
nothing else; if the file shows up within the window, the wait branch is
skipped and every emitted record is a line record `label / line + newline`
for a line observed in the file (so no waiting record is produced unless a
file line literally equals the waiting text). -/
theorem C9_tail_wait_for_create (env : TailEnv) :
    ((∀ j, j < 60 → env.statOk j = false) → (∀ n, env.cancel n = false) →
      tailFileTrace env = [⟨env.label, "Waiting for output file...\n".toList⟩]) ∧
    ((∀ n, env.cancel n = false) → (∃ j, j < 60 ∧ env.statOk j = true) →
      ∀ m ∈ tailFileTrace env, m.type = env.label ∧
        ∃ l, (l ∈ env.initialLines ∨ ∃ t ∈ env.followTicks, l ∈ t) ∧
          m.data = l ++ ['\n']) := by
  constructor
  · intro hstat hcancel
    rw [tailFileTrace, waitPhase_notFound env 60 0 0 hstat hcancel (by omega)]
  · intro hcancel hj
    obtain ⟨j, hj60, hjs⟩ := hj
    have hfound := waitPhase_found env 60 0 0 hcancel ⟨j, by omega, by omega, hjs⟩
    intro m hm
    rw [tailFileTrace] at hm
    rcases hw : waitPhase env 60 0 0 with ⟨out, ctr⟩
    rw [hw] at hm hfound
    simp only at hfound
    subst hfound
    simp only at hm
    by_cases ho : env.openOk = true
    · rw [ho] at hm
      simp only [Bool.not_true, Bool.false_eq_true, if_false] at hm
      rcases hab : emitLines env env.initialLines ctr with ⟨ms, ctr2, ab⟩
      rw [hab] at hm
      simp only at hm
      cases ab with
      | true =>
          simp only [if_true] at hm
          obtain ⟨l, hl, he⟩ :=
            emitLines_mem env env.initialLines ctr m (by rw [hab]; exact hm)
          exact he ▸ ⟨rfl, l, Or.inl hl, rfl⟩
      | false =>
          simp only [Bool.false_eq_true, if_false] at hm
          rcases List.mem_append.mp hm with h1 | h2
          · obtain ⟨l, hl, he⟩ :=
              emitLines_mem env env.initialLines ctr m (by rw [hab]; exact h1)
            exact he ▸ ⟨rfl, l, Or.inl hl, rfl⟩
          · obtain ⟨t, ht, l, hl, he⟩ := followPhase_mem env env.followTicks ctr2 m h2
            exact he ▸ ⟨rfl, l, Or.inr ⟨t, ht, hl⟩, rfl⟩
    · have ho2 : env.openOk = false := by
        cases hoo : env.openOk
        · rfl
        · exact absurd hoo ho
      rw [ho2] at hm
      simp at hm

/-- C9 witness: the never-appearing file yields exactly the waiting record,
and in a run where the file appears at the fourth probe the first record
is the line record for the drained line `hello`. -/
theorem C9_tail_wait_for_create_witness :
    tailFileTrace c9EnvNoFile =
      [⟨"stdout".toList, "Waiting for output file...\n".toList⟩] ∧
    ((⟨"stdout".toList, "hello\n".toList⟩ : TailMsg).type = c9EnvFound.label ∧
      ∃ l, (l ∈ c9EnvFound.initialLines ∨ ∃ t ∈ c9EnvFound.followTicks, l ∈ t) ∧
        (⟨"stdout".toList, "hello\n".toList⟩ : TailMsg).data = l ++ ['\n']) := by
  constructor
  · exact (C9_tail_wait_for_create c9EnvNoFile).1
      (fun j _ => rfl) (fun n => rfl)
  · exact (C9_tail_wait_for_create c9EnvFound).2
      (fun n => rfl) ⟨3, by omega, by decide⟩
      ⟨"stdout".toList, "hello\n".toList⟩ (by decide)

/-- C10: whenever `StartTask` fails in its validation prologue — invalid
task name, unknown task, or parameter validation failure — it returns the
error with the running-task map and the world (identifier supply and
filesystem/process effect log) unchanged: no identifier is drawn, no
directory or wrapper script is created, nothing is spawned. -/
theorem C10_validation_errors_have_no_side_effects (taskDir : List Char)
    (tasks : List TaskConfig) (running : List (List Char × RunningTask)) (w : World)
    (name : List Char) (params : List (List Char × GoVal))
    (h : startTaskValidationFails tasks name params = true) :
    (startTask taskDir tasks running w name params).2.1 = running ∧
    (startTask taskDir tasks running w name params).2.2 = w ∧
    exceptIsError (startTask taskDir tasks running w name params).1 = true := by
  rw [startTaskValidationFails] at h
  cases hv : validateTaskName name with
  | error e => simp [startTask, hv, exceptIsError]
  | ok u =>
      rw [hv] at h
      simp only [exceptIsError, Bool.false_or] at h
      cases hf : tasks.find? (fun t => t.name = name) with
      | none => simp [startTask, hv, hf, exceptIsError]
      | some tc =>
          rw [hf] at h
          cases hp : validateAndProcessParameters tc.parameters params with
          | error e => simp [startTask, hv, hf, hp, exceptIsError]
          | ok vp =>
              simp [hp, exceptIsError] at h

/-- C10 witness: the missing-required-parameter failure at a concrete
configuration leaves the map and the world untouched. -/
theorem C10_validation_errors_have_no_side_effects_witness :
    (startTask "/var/lib/tasks".toList paramTasks [] c3World "p".toList []).2.1 =
      ([] : List (List Char × RunningTask)) ∧
    (startTask "/var/lib/tasks".toList paramTasks [] c3World "p".toList []).2.2 =
      c3World ∧
    exceptIsError (startTask "/var/lib/tasks".toList paramTasks [] c3World
      "p".toList []).1 = true :=
  C10_validation_errors_have_no_side_effects "/var/lib/tasks".toList paramTasks []
    c3World "p".toList [] (by decide)

end VTV
